import Mathlib

/-!
Verification development for the semantic core of the SUS HDL compiler.

Each section embeds a part of the Rust source shallowly in Lean:
pure functions become Lean functions, stateful passes become explicit
state-passing folds, machine integers become `Int`/`Nat`, and fallible
code returns `Option`/`Except`.  Arena-allocated `FlatAlloc`/`ListOfLists`
containers are embedded as `List`s indexed by position, and `HashMap`
namespaces as functions `String → Option _`.  Where a definition comes
from a part of the repository that is not present as source (only its
callers are), its doc comment starts with `Modelled from the spec:`.
-/

namespace Sus

/-! ## Code generation fallback (`codegen_fallback.rs`): name mangling -/

/-- Models the Rust standard library predicate `char::is_whitespace`
(true exactly on the Unicode `White_Space` code points, a fixed finite set). -/
def rustIsWhitespace (c : Char) : Bool :=
  decide ((0x09 ≤ c.toNat ∧ c.toNat ≤ 0x0D) ∨ c.toNat = 0x20 ∨ c.toNat = 0x85 ∨
    c.toNat = 0xA0 ∨ c.toNat = 0x1680 ∨ (0x2000 ≤ c.toNat ∧ c.toNat ≤ 0x200A) ∨
    c.toNat = 0x2028 ∨ c.toNat = 0x2029 ∨ c.toNat = 0x202F ∨ c.toNat = 0x205F ∨
    c.toNat = 0x3000)

/-- Models the Rust standard library predicate `char::is_alphanumeric`
(Unicode `Alphabetic` or numeric categories `Nd`/`Nl`/`No`).  The model is
exact for all code points below `0x100`: the ASCII digits and letters, the
Latin-1 letters, and the Latin-1 numeric signs (ordinal indicators,
superscripts, the micro sign and the vulgar fractions); it is conservatively
`false` above `0xFF`. -/
def rustIsAlphanumeric (c : Char) : Bool :=
  decide ((0x30 ≤ c.toNat ∧ c.toNat ≤ 0x39) ∨ (0x41 ≤ c.toNat ∧ c.toNat ≤ 0x5A) ∨
    (0x61 ≤ c.toNat ∧ c.toNat ≤ 0x7A) ∨ c.toNat = 0xAA ∨ c.toNat = 0xB2 ∨
    c.toNat = 0xB3 ∨ c.toNat = 0xB5 ∨ c.toNat = 0xB9 ∨ c.toNat = 0xBA ∨
    c.toNat = 0xBC ∨ c.toNat = 0xBD ∨ c.toNat = 0xBE ∨
    (0xC0 ≤ c.toNat ∧ c.toNat ≤ 0xD6) ∨ (0xD8 ≤ c.toNat ∧ c.toNat ≤ 0xF6) ∨
    (0xF8 ≤ c.toNat ∧ c.toNat ≤ 0xFF))

/-- Embedding of `mangle` from `codegen_fallback.rs`, on the string's
character sequence: whitespace and `:` are dropped, alphanumeric characters
are kept as-is, every other character becomes `_`. -/
def mangle : List Char → List Char
  | [] => []
  | c :: rest =>
    if rustIsWhitespace c || c == ':' then mangle rest
    else (if rustIsAlphanumeric c then c else '_') :: mangle rest

/-- The character class `[A-Za-z0-9_]` named by the spec sentence P6. -/
def isAsciiWordChar (c : Char) : Bool :=
  decide ((0x30 ≤ c.toNat ∧ c.toNat ≤ 0x39) ∨ (0x41 ≤ c.toNat ∧ c.toNat ≤ 0x5A) ∨
    (0x61 ≤ c.toNat ∧ c.toNat ≤ 0x7A) ∨ c.toNat = 0x5F)

/-! ## Typing (`typing.rs`): `Type`, its `PartialEq`, rendering, `typecheck` -/

/-- Embedding of `typing.rs`'s `Type`.  `NamedUUID`s are `Nat`s; the array
size expression `FlatID` is a `Nat` (it is ignored by equality, as in the
source). -/
inductive Typ where
  | error : Typ
  | unknown : Typ
  | named (n : Nat) : Typ
  | array (elem : Typ) (sizeExpr : Nat) : Typ
deriving DecidableEq

/-- Embedding of `impl PartialEq for Type`: `Named` compares by id, `Array`
compares element types (ignoring the size expression), and every other pair
— including `Error == Error` and `Unknown == Unknown` — is `false`. -/
def typEq : Typ → Typ → Bool
  | .named l0, .named r0 => l0 == r0
  | .array l0 _, .array r0 _ => typEq l0 r0
  | _, _ => false

/-- Embedding of `Type::to_string`.  The linker's name table is a function
from `NamedUUID` to the rendered full name. -/
def typToString (linkerNames : Nat → String) : Typ → String
  | .error => "\x7berror\x7d"
  | .unknown => "\x7bunknown\x7d"
  | .named n => linkerNames n
  | .array sub _ => typToString linkerNames sub ++ "[]"

/-- Outcome of `typecheck`: success, an error diagnostic recorded, or a
panic from the `assert!(expected_name != found_name)` in the error branch
(the diagnostic pushed just before the assert never surfaces because the
process unwinds). -/
inductive TypecheckOutcome where
  | ok : TypecheckOutcome
  | reported (msg : String) : TypecheckOutcome
  | panicked : TypecheckOutcome
deriving DecidableEq

/-- Embedding of `typecheck` from `typing.rs`: when `expected != found` it
renders both types, records a diagnostic, and asserts the rendered names
differ. -/
def typecheck (found expected : Typ) (context : String) (linkerNames : Nat → String) :
    TypecheckOutcome :=
  if !typEq expected found then
    let expected_name := typToString linkerNames expected
    let found_name := typToString linkerNames found
    if expected_name ≠ found_name then
      .reported ("Typing Error: " ++ context ++ " expects a " ++ expected_name ++
        " but was given a " ++ found_name)
    else .panicked
  else .ok

/-! ## Linker (`linker/mod.rs`): global namespace, `get_module_id`,
`FileBuilder::add_module`, `Linker::remove_everything_in_file` -/

/-- Embedding of `NameElem`: a global is a module, a named type or a named
constant, identified by its arena id. -/
inductive NameElem where
  | module (id : Nat) : NameElem
  | namedType (id : Nat) : NameElem
  | namedConstant (id : Nat) : NameElem
deriving DecidableEq

/-- Embedding of `NamespaceElement`: a unique global or a collision set. -/
inductive NamespaceElement where
  | global (g : NameElem) : NamespaceElement
  | colission (elems : List NameElem) : NamespaceElement
deriving DecidableEq

/-- The `global_namespace : HashMap<String, NamespaceElement>` embedded as a
function; absent keys map to `none`. -/
def GlobalNamespace : Type := String → Option NamespaceElement

/-- Embedding of `Linker::get_module_id`: `some id` exactly when the entry
is a unique global that is a module. -/
def get_module_id (ns : GlobalNamespace) (name : String) : Option Nat :=
  match ns name with
  | some (.global (.module id)) => some id
  | _ => none

/-- Embedding of `FileBuilder::add_name`: a vacant entry becomes a unique
global, an occupied unique global becomes a two-element collision, and a
collision gets the new element appended. -/
def add_name (ns : GlobalNamespace) (name : String) (new_obj_id : NameElem) :
    GlobalNamespace := fun n =>
  if n = name then
    some (match ns name with
      | some (.global g) => .colission [g, new_obj_id]
      | some (.colission coll) => .colission (coll ++ [new_obj_id])
      | none => .global new_obj_id)
  else ns n

/-- The linker state relevant to one file: the global namespace and the
file's `associated_values` list.  Arena allocation of the module itself is
represented by the caller supplying the freshly allocated id. -/
structure LinkerNamespaceState where
  global_namespace : GlobalNamespace
  associated_values : List NameElem

/-- Embedding of `FileBuilder::add_module`: record the new module in the
file's `associated_values` and insert its name into the namespace. -/
def add_module (st : LinkerNamespaceState) (module_name : String) (new_id : Nat) :
    LinkerNamespaceState :=
  { global_namespace := add_name st.global_namespace module_name (.module new_id),
    associated_values := st.associated_values ++ [.module new_id] }

/-- Registering all of a file's globals: `add_module` for each parsed
module, in order. -/
def register_file_globals (st : LinkerNamespaceState) (adds : List (String × Nat)) :
    LinkerNamespaceState :=
  adds.foldl (fun s p => add_module s p.1 p.2) st

/-- The per-entry pruning step of `Linker::remove_everything_in_file`'s
`retain` closure: a unique global is kept unless it is being removed; a
collision keeps its surviving members and the entry survives when nonempty
(note a surviving singleton stays a `colission`). -/
def remove_element (to_remove : List NameElem) :
    NamespaceElement → Option NamespaceElement
  | .global g => if to_remove.contains g then none else some (.global g)
  | .colission coll =>
    let retained := coll.filter (fun g => !(to_remove.contains g))
    if retained.length > 0 then some (.colission retained) else none

/-- Embedding of `Linker::remove_everything_in_file`: every value owned by
the file is freed and pruned from the namespace; the file's
`associated_values` list is drained. -/
def remove_everything_in_file (st : LinkerNamespaceState) : LinkerNamespaceState :=
  { global_namespace := fun n =>
      (st.global_namespace n).bind (remove_element st.associated_values),
    associated_values := [] }

/-- The multiset of globals an entry binds, used to compare namespaces up to
the `global`-versus-singleton-`colission` representation. -/
def elemsOf : Option NamespaceElement → List NameElem
  | none => []
  | some (.global g) => [g]
  | some (.colission l) => l

/-- A concrete one-entry namespace used as the counterexample base. -/
def exNs : GlobalNamespace := fun n =>
  if n = "m" then some (.global (.module 0)) else none

/-- The counterexample's initial linker state: `exNs`, no file values yet. -/
def exState0 : LinkerNamespaceState :=
  { global_namespace := exNs, associated_values := [] }

/-! ## Flattening (`flattening/mod.rs`): spans, identifier kinds, the flat
IR instruction list, and the `read_only`/`generative_check` machinery -/

/-- Spans are opaque source ranges; we embed them as pairs of positions. -/
abbrev Span : Type := Nat × Nat

/-- Modelled from the spec: `IdentifierType` (defined in the AST module,
which is not among the sources) has the kinds Local, State and Generative;
only Generative is compile-time. -/
inductive IdentifierType where
  | localKind : IdentifierType
  | stateKind : IdentifierType
  | generativeKind : IdentifierType
deriving DecidableEq

/-- Embedding of `IdentifierType::is_generative`. -/
def IdentifierType.is_generative : IdentifierType → Bool
  | .generativeKind => true
  | _ => false

/-- Embedding of `Declaration` restricted to the fields `generative_check`
and the `read_only` claims inspect.  `typ_generative_inputs` lists the
`FlatID`s visited by `typ.for_each_generative_input` (the array-size
expression wires of the written type). -/
structure Declaration where
  identifier_type : IdentifierType
  read_only : Bool
  latency_specifier : Option Nat
  typ_generative_inputs : List Nat
deriving DecidableEq

/-- Embedding of `WireSource` (operator structure only; `Operator`,
`Value` and `ConstantUUID` payloads are irrelevant to the checked pass and
elided). -/
inductive WireSource where
  | wireRead (from_wire : Nat) : WireSource
  | unaryOp (right : Nat) : WireSource
  | binaryOp (left right : Nat) : WireSource
  | arrayAccess (arr arr_idx : Nat) : WireSource
  | constant : WireSource
  | namedConstant (id : Nat) : WireSource
deriving DecidableEq

/-- Embedding of `WireSource::for_each_input_wire` as the visited list. -/
def WireSource.input_wires : WireSource → List Nat
  | .wireRead from_wire => [from_wire]
  | .unaryOp right => [right]
  | .binaryOp left right => [left, right]
  | .arrayAccess arr arr_idx => [arr, arr_idx]
  | .constant => []
  | .namedConstant _ => []

/-- Embedding of `WireInstance` restricted to the fields `generative_check`
reads and writes. -/
structure WireInstance where
  is_compiletime : Bool
  span : Span
  source : WireSource
deriving DecidableEq

/-- Embedding of `ConnectionWrite` restricted to `root` and `span`. -/
structure ConnectionWrite where
  root : Nat
  span : Span
deriving DecidableEq

/-- Embedding of `WriteType` from `flattening/mod.rs` (`num_regs` is an
`i64`; `regs_span` is present only for an explicit `reg` annotation). -/
inductive WriteType where
  | connection (num_regs : Int) (regs_span : Option Span) : WriteType
  | initialWrite : WriteType
deriving DecidableEq

/-- Embedding of `Write` (`to` is a Lean keyword, hence `to_ref`). -/
structure FlatWrite where
  write_type : WriteType
  from_wire : Nat
  to_ref : ConnectionWrite
deriving DecidableEq

/-- Embedding of `IfStatement`. -/
structure IfStatement where
  condition : Nat
  then_start : Nat
  then_end_else_start : Nat
  else_end : Nat
deriving DecidableEq

/-- Embedding of `Instruction` (the flat IR).  Payload fields that the
verified passes never touch are elided. -/
inductive Instruction where
  | subModule : Instruction
  | declaration (decl : Declaration) : Instruction
  | wire (w : WireInstance) : Instruction
  | write (w : FlatWrite) : Instruction
  | ifStatement (stm : IfStatement) : Instruction
  | forStatement : Instruction
deriving DecidableEq

/-- Embedding of `Instruction::extract_wire` (panics on non-wires in the
source; `none` here, which only well-formed IR never hits). -/
def extract_wire (instructions : List Instruction) (i : Nat) : Option WireInstance :=
  match instructions[i]? with
  | some (.wire w) => some w
  | _ => none

/-- Embedding of `Instruction::extract_wire_declaration`. -/
def extract_wire_declaration (instructions : List Instruction) (i : Nat) :
    Option Declaration :=
  match instructions[i]? with
  | some (.declaration d) => some d
  | _ => none

/-! ### The `read_only` flag (claim about `flatten_declaration` call sites)

`flatten_declaration` stores the `read_only` argument it is handed into the
new `Declaration`.  Its callers are: `initialize_interface` (ports, with
`read_only = is_input ^ IS_SUBMODULE`), `flatten_left_expr`'s
`LeftExpression::Declaration` arm (always `false`), and the `Statement::For`
arm of `flatten_code_keep_context` (the loop iterator, always `true`). -/

/-- Line 295 of `flattening/mod.rs`: `let read_only = is_input ^ IS_SUBMODULE`. -/
def port_read_only (is_input IS_SUBMODULE : Bool) : Bool :=
  xor is_input IS_SUBMODULE

/-- Embedding of `initialize_interface`: each port declaration at index
`idx` is an input exactly when `idx < outputs_start`, and is flattened with
`read_only = is_input ^ IS_SUBMODULE`.  The result lists the `read_only`
flag of each flattened port declaration. -/
def initialize_interface (IS_SUBMODULE : Bool) (num_ports outputs_start : Nat) :
    List Bool :=
  (List.range num_ports).map fun idx =>
    port_read_only (decide (idx < outputs_start)) IS_SUBMODULE

/-- The flattening contexts in which `flatten_declaration` is invoked, one
constructor per call site. -/
inductive DeclOrigin where
  | interfacePort (is_input IS_SUBMODULE : Bool) : DeclOrigin
  | leftExprDeclaration (gets_assigned : Bool) : DeclOrigin
  | forLoopIterator : DeclOrigin
deriving DecidableEq

/-- The `read_only` value `flatten_declaration` receives at each call site:
ports get `is_input ^ IS_SUBMODULE`, a left-expression declaration gets
`false` (whatever `gets_assigned` is), and the `for`-loop iterator gets
`true`. -/
def flattened_read_only : DeclOrigin → Bool
  | .interfacePort is_input IS_SUBMODULE => port_read_only is_input IS_SUBMODULE
  | .leftExprDeclaration _ => false
  | .forLoopIterator => true

/-! ### `generative_check` (claim C6) -/

/-- The mutable state threaded through `generative_check`: the instruction
list (wire compile-time flags are written back into it), the runtime-`if`
stack (head is the top; entries are `(else_end, condition span)`), the
per-declaration recorded stack depths, and the collected diagnostics. -/
structure GenCheckState where
  instructions : List Instruction
  runtime_if_stack : List (Nat × Span)
  declaration_depths : Nat → Option Nat
  errors : List (Span × String)

/-- Initial `generative_check` state for an instruction list. -/
def genInit (instructions : List Instruction) : GenCheckState :=
  { instructions := instructions
    runtime_if_stack := []
    declaration_depths := fun _ => none
    errors := [] }

/-- The pop loop at the head of each `generative_check` iteration: pop
stack entries whose recorded end is the current instruction id. -/
def popPhase (s : GenCheckState) (inst_id : Nat) : GenCheckState :=
  { s with runtime_if_stack :=
      s.runtime_if_stack.dropWhile (fun es => es.1 == inst_id) }

/-- Embedding of `must_be_compiletime`: one diagnostic when the wire is not
compile-time (the `none` case stands for the source's arena-index panic on
malformed IR, which never fires on well-formed input). -/
def must_be_compiletime (wo : Option WireInstance) (context : String) :
    List (Span × String) :=
  match wo with
  | some w => if !w.is_compiletime then [(w.span, context ++ " must be compile time")] else []
  | none => []

/-- The compile-time flag `generative_check` computes for a wire: a
`WireRead` is generative exactly when the referenced declaration is; any
other source is generative when all its input wires are compile-time. -/
def computed_wire_is_generative (instructions : List Instruction)
    (w : WireInstance) : Bool :=
  match w.source with
  | .wireRead from_wire =>
    match extract_wire_declaration instructions from_wire with
    | some decl => decl.identifier_type.is_generative
    | none => true
  | src => src.input_wires.all fun source_id =>
      match extract_wire instructions source_id with
      | some source_wire => source_wire.is_compiletime
      | none => true

/-- The diagnostics of the `Declaration` arm of `generative_check`:
latency specifier and array sizes must be compile-time. -/
def declaration_step_errors (instructions : List Instruction)
    (decl : Declaration) : List (Span × String) :=
  (match decl.latency_specifier with
    | some latency_specifier =>
      must_be_compiletime (extract_wire instructions latency_specifier)
        "Latency specifier"
    | none => []) ++
  decl.typ_generative_inputs.flatMap (fun param_id =>
    must_be_compiletime (extract_wire instructions param_id) "Array size")

/-- The diagnostics of the `Write` arm of `generative_check`: read-only
targets; then, for a `Connection` write to a generative declaration, a
non-compile-time source and a runtime-conditional context (current
runtime-`if` stack deeper than the depth recorded at the declaration); for
an `Initial` write, a non-`State` target and a non-compile-time source. -/
def write_step_errors (s : GenCheckState) (conn : FlatWrite) : List (Span × String) :=
  match extract_wire_declaration s.instructions conn.to_ref.root with
  | some decl =>
    (if decl.read_only then
      [(conn.to_ref.span, "Cannot Assign to Read-Only value")] else []) ++
    (match conn.write_type with
      | .connection _ _ =>
        if decl.identifier_type.is_generative then
          must_be_compiletime (extract_wire s.instructions conn.from_wire)
            "Assignments to generative variables" ++
          (match s.declaration_depths conn.to_ref.root with
            | some declared_at_depth =>
              if s.runtime_if_stack.length > declared_at_depth then
                [(conn.to_ref.span,
                  "Cannot write to generative variables in runtime conditional block")]
              else []
            | none => [])
        else []
      | .initialWrite =>
        (if decl.identifier_type ≠ .stateKind then
          [(conn.to_ref.span, "Initial values can only be given to state registers!")]
        else []) ++
        must_be_compiletime (extract_wire s.instructions conn.from_wire)
          "initial value assignment")
  | none => []

/-- The runtime-`if` entry iteration `inst_id` pushes, if any: the
instruction is an `IfStatement` whose condition wire is not compile-time;
the entry records the branch range's end and the condition's span. -/
def pushed_runtime_if (instructions : List Instruction) (inst_id : Nat) :
    Option (Nat × Span) :=
  match instructions[inst_id]? with
  | some (.ifStatement if_stmt) =>
    match extract_wire instructions if_stmt.condition with
    | some condition_wire =>
      if !condition_wire.is_compiletime then
        some (if_stmt.else_end, condition_wire.span)
      else none
    | none => none
  | _ => none

/-- The match body of one `generative_check` iteration (after the pop
loop), as a state transformer for instruction `inst_id`. -/
def genBody (s : GenCheckState) (inst_id : Nat) : GenCheckState :=
  match s.instructions[inst_id]? with
  | some (.declaration decl) =>
    { s with
      declaration_depths :=
        if decl.identifier_type.is_generative then
          fun k => if k = inst_id then some s.runtime_if_stack.length
            else s.declaration_depths k
        else s.declaration_depths,
      errors := s.errors ++ declaration_step_errors s.instructions decl }
  | some (.wire w) =>
    { s with instructions := s.instructions.set inst_id (.wire { w with is_compiletime := computed_wire_is_generative s.instructions w }) }
  | some (.write conn) =>
    { s with errors := s.errors ++ write_step_errors s conn }
  | some (.ifStatement _) =>
    { s with runtime_if_stack :=
        match pushed_runtime_if s.instructions inst_id with
        | some entry => entry :: s.runtime_if_stack
        | none => s.runtime_if_stack }
  | some .subModule | some .forStatement | none => s

/-- The diagnostics one `genBody` application appends: those of the
`Declaration` arm or the `Write` arm; every other arm emits none. -/
def genStepErrors (s : GenCheckState) (inst_id : Nat) : List (Span × String) :=
  match s.instructions[inst_id]? with
  | some (.declaration decl) => declaration_step_errors s.instructions decl
  | some (.write conn) => write_step_errors s conn
  | _ => []

/-- One full `generative_check` iteration: pop loop, then the match body. -/
def genStep (s : GenCheckState) (inst_id : Nat) : GenCheckState :=
  genBody (popPhase s inst_id) inst_id

/-- State of `generative_check` just before processing instruction `i`
(after the first `i` iterations). -/
def genStateAt (instructions : List Instruction) (i : Nat) : GenCheckState :=
  (List.range i).foldl genStep (genInit instructions)

/-- Embedding of `generative_check`: run every iteration in order. -/
def generative_check (instructions : List Instruction) : GenCheckState :=
  genStateAt instructions instructions.length

/-- The diagnostics emitted by iteration `i` alone (errors are append-only,
so these are the entries past the previous length). -/
def genEmittedAt (instructions : List Instruction) (i : Nat) : List (Span × String) :=
  (genStateAt instructions (i + 1)).errors.drop (genStateAt instructions i).errors.length

/-- Whether iteration `j` pushes a runtime-`if` entry, and which: `j` holds
an `IfStatement` whose condition wire is (at that point) not compile-time. -/
def entersRuntimeIf (instructions : List Instruction) (j : Nat) : Option (Nat × Span) :=
  pushed_runtime_if (genStateAt instructions j).instructions j

/-- The runtime-`if` statements enclosing instruction `i`, innermost first:
those entered at some `j < i` whose body range still extends past `i`. -/
def enclosing_runtime_ifs (instructions : List Instruction) (i : Nat) :
    List (Nat × Span) :=
  (List.range i).reverse.filterMap fun j =>
    match entersRuntimeIf instructions j with
    | some es => if i < es.1 then some es else none
    | none => none

/-- The runtime-`if` entries still on the stack when iteration `i` starts
(before its pop loop): those entered at some `j < i` whose recorded end has
not yet been passed. -/
def pre_runtime_stack (instructions : List Instruction) (i : Nat) :
    List (Nat × Span) :=
  (List.range i).reverse.filterMap fun j =>
    match entersRuntimeIf instructions j with
    | some es => if i ≤ es.1 then some es else none
    | none => none

/-- Structural well-formedness of `if` ranges in the flat IR (invariant I1):
each `IfStatement`'s range ends after the statement itself within the list,
and ranges of nested `if`s never cross. -/
def if_ranges_wf (instructions : List Instruction) : Bool :=
  instructions.enum.all fun je =>
    match je.2 with
    | .ifStatement st =>
      decide (je.1 < st.else_end) && decide (st.else_end ≤ instructions.length) &&
      (instructions.enum.all fun ke =>
        match ke.2 with
        | .ifStatement st2 =>
          !(decide (je.1 < ke.1) && decide (ke.1 < st.else_end) &&
            decide (st.else_end < st2.else_end))
        | _ => true)
    | _ => true

/-! ## Instantiation and latency counting (`instantiation/latency_count.rs`)

The concrete wire graph (`RealWire`, `MultiplexerSource`, `SubModule`,
`InterfacePort`) and the solver interface (`FanInOut`, `SpecifiedLatency`,
`LatencyCountingError`, `convert_fanin_to_fanout`) are declared in
`instantiation/mod.rs` and `latency_algorithm.rs`, which are not among the
sources; those carriers are modelled from the spec (sections 3 and 4.6).
`make_fanins`, `compute_latencies`, `gather_all_mux_inputs` and
`filter_unique_write_flats` themselves are embedded from
`latency_count.rs`. -/

/-- Modelled from the spec: `SpecifiedLatency { wire, latency }` from the
missing `latency_algorithm.rs`. -/
structure SpecifiedLatency where
  wire : Nat
  latency : Int
deriving DecidableEq

/-- Modelled from the spec: `FanInOut { other, delta_latency }`, one
weighted latency edge endpoint, from the missing `latency_algorithm.rs`. -/
structure FanInOut where
  other : Nat
  delta_latency : Int
deriving DecidableEq

/-- Modelled from the spec: the three `LatencyCountingError` kinds of
section 4.6. -/
inductive LatencyCountingError where
  | netPositiveLatencyCycle (conflict_path : List SpecifiedLatency)
      (net_roundtrip_latency : Int) : LatencyCountingError
  | indeterminablePortLatency (bad_ports : List (Nat × Int × Int)) :
      LatencyCountingError
  | conflictingSpecifiedLatencies (conflict_path : List SpecifiedLatency) :
      LatencyCountingError
deriving DecidableEq

/-- Modelled from the spec: the part of a `MultiplexerSource` that records
where the value comes from — source wire, optional runtime condition wire,
per-source register count and the originating `Write` instruction
(`mux_input.from` in `latency_count.rs`; `from` is a Lean keyword). -/
structure MuxInputFrom where
  from_wire : Nat
  condition : Option Nat
  num_regs : Int
  original_connection : Nat
deriving DecidableEq

/-- Modelled from the spec: one `MultiplexerSource` — a destination path of
array-index wires plus the `MuxInputFrom` record. -/
structure MultiplexerSource where
  to_path : List Nat
  from_in : MuxInputFrom
deriving DecidableEq

/-- Modelled from the spec: `MultiplexerSource::for_each_source` visits the
source wire, the condition wire when present, and the path index wires. -/
def MultiplexerSource.for_each_source (s : MultiplexerSource) : List Nat :=
  s.from_in.from_wire ::
    ((match s.from_in.condition with
      | some c => [c]
      | none => []) ++ s.to_path)

/-- Modelled from the spec: `RealWireDataSource` (section 3). -/
inductive RealWireDataSource where
  | constantVal : RealWireDataSource
  | readOnly : RealWireDataSource
  | outPort (sub_module_id port_id : Nat) : RealWireDataSource
  | selectRead (root : Nat) (path : List Nat) : RealWireDataSource
  | unaryOpWire (right : Nat) : RealWireDataSource
  | binaryOpWire (left right : Nat) : RealWireDataSource
  | multiplexer (is_state : Bool) (sources : List MultiplexerSource) :
      RealWireDataSource
deriving DecidableEq

/-- Modelled from the spec: `iter_sources_with_min_latency` yields, for each
edge implied by the wire's source (operator inputs, select root and
indices, multiplexer sources), the source wire id and the edge weight —
`-num_regs` for a multiplexer source, `0` otherwise (section 4.6). -/
def RealWireDataSource.iter_sources_with_min_latency :
    RealWireDataSource → List FanInOut
  | .constantVal => []
  | .readOnly => []
  | .outPort _ _ => []
  | .selectRead root path => ⟨root, 0⟩ :: path.map (fun i => ⟨i, 0⟩)
  | .unaryOpWire right => [⟨right, 0⟩]
  | .binaryOpWire left right => [⟨left, 0⟩, ⟨right, 0⟩]
  | .multiplexer _ sources => sources.flatMap fun s =>
      s.for_each_source.map fun w => ⟨w, -s.from_in.num_regs⟩

/-- Modelled from the spec: the `CALCULATE_LATENCY_LATER` sentinel marking
a wire whose absolute latency is still pending (`i64::MIN`). -/
def CALCULATE_LATENCY_LATER : Int := -(2 ^ 63)

/-- Modelled from the spec: a `RealWire` restricted to the fields latency
counting reads and writes. -/
structure RealWire where
  name : String
  source : RealWireDataSource
  original_instruction : Nat
  absolute_latency : Int
  needed_until : Int
deriving DecidableEq

/-- Modelled from the spec: a callee-side port record of an instantiated
sub-module (`sub_mod.instance.interface_ports` entries): direction and the
callee's computed absolute latency. -/
structure SubModulePort where
  is_input : Bool
  absolute_latency : Int
deriving DecidableEq

/-- Modelled from the spec: a concrete `SubModule` record as used by
`make_fanins`: the caller-side `port_map` (`PortID → WireID`) and the
instantiated callee's `interface_ports` (`PortID → Option port`); the two
lists are indexed by the same `PortID`s. -/
structure SubModule where
  port_map : List Nat
  interface_ports : List (Option SubModulePort)
deriving DecidableEq

/-- Modelled from the spec: a caller-side interface port record:
direction, the wire carrying the port, and the exported absolute latency. -/
structure InterfacePort where
  is_input : Bool
  wire : Nat
  absolute_latency : Int
deriving DecidableEq

/-- The slice of `InstantiationContext` that `compute_latencies` touches. -/
structure InstantiationContext where
  wires : List RealWire
  submodules : List SubModule
  interface_ports : List (Option InterfacePort)
deriving DecidableEq

/-- The sub-module part of one `make_fanins` group: for the wire `id`, walk
every sub-module's `port_map`; on the entries mapping to `id` whose callee
port is instantiated, walk every other instantiated callee port and — when
the guard holds — push an edge to that port's caller wire weighted by the
latency difference.  The guard is embedded exactly as written in the
source: `other_port_in_submodule.is_input == !other_port_in_submodule.is_input`,
which compares a value with its own negation. -/
def submodule_fanins_for (submodules : List SubModule) (id : Nat) : List FanInOut :=
  submodules.flatMap fun sub_mod =>
    sub_mod.port_map.enum.flatMap fun pw =>
      if pw.2 ≠ id then []
      else
        match sub_mod.interface_ports[pw.1]? with
        | some (some port_in_submodule) =>
          sub_mod.interface_ports.enum.flatMap fun opp =>
            match opp.2 with
            | some other_port_in_submodule =>
              if other_port_in_submodule.is_input = (!other_port_in_submodule.is_input) then
                [⟨(sub_mod.port_map[opp.1]?).getD 0,
                  if port_in_submodule.is_input then
                    -(other_port_in_submodule.absolute_latency -
                      port_in_submodule.absolute_latency)
                  else
                    other_port_in_submodule.absolute_latency -
                      port_in_submodule.absolute_latency⟩]
              else []
            | none => []
        | _ => []

/-- Embedding of `InstantiationContext::make_fanins`: one edge group per
wire (its data-source edges followed by the sub-module edges), plus the
`SpecifiedLatency` seeds from wires whose latency is already set. -/
def make_fanins (ctx : InstantiationContext) : List (List FanInOut) × List SpecifiedLatency :=
  (ctx.wires.enum.map fun iw =>
      iw.2.source.iter_sources_with_min_latency ++
        submodule_fanins_for ctx.submodules iw.1,
   ctx.wires.enum.filterMap fun iw =>
      if iw.2.absolute_latency ≠ CALCULATE_LATENCY_LATER then
        some ⟨iw.1, iw.2.absolute_latency⟩
      else none)

/-- Modelled from the spec: `convert_fanin_to_fanout` from the missing
`latency_algorithm.rs` — `fanouts[w]` holds an edge `(v, delta)` for every
fanin edge `(w, delta)` of `v`. -/
def convert_fanin_to_fanout (fanins : List (List FanInOut)) : List (List FanInOut) :=
  (List.range fanins.length).map fun w =>
    fanins.enum.flatMap fun vg =>
      vg.2.filterMap fun e =>
        if e.other = w then some ⟨vg.1, e.delta_latency⟩ else none

/-- The type of the external latency solver `solve_latencies`
(fanins, fanouts, inputs, outputs, initial seeds). -/
abbrev LatencySolver :=
  List (List FanInOut) → List (List FanInOut) → List Nat → List Nat →
    List SpecifiedLatency → Except LatencyCountingError (List Int)

/-- The input-port wire list `compute_latencies` hands the solver. -/
def latency_inputs (ctx : InstantiationContext) : List Nat :=
  ctx.interface_ports.filterMap fun p =>
    match p with
    | some q => if q.is_input then some q.wire else none
    | none => none

/-- The output-port wire list `compute_latencies` hands the solver. -/
def latency_outputs (ctx : InstantiationContext) : List Nat :=
  ctx.interface_ports.filterMap fun p =>
    match p with
    | some q => if !q.is_input then some q.wire else none
    | none => none

/-- The `zip(self.wires.iter_mut(), latencies.iter())` update in the `Ok`
branch: wires beyond the solution list keep their old latency. -/
def update_wire_latencies : List RealWire → List Int → List RealWire
  | [], _ => []
  | ws, [] => ws
  | w :: ws, l :: ls => { w with absolute_latency := l } :: update_wire_latencies ws ls

/-- Arena indexing `self.wires[id].absolute_latency`; out-of-range access
panics in the source and never occurs on well-formed graphs (the sentinel
default is arbitrary). -/
def wire_absolute_latency (wires : List RealWire) (i : Nat) : Int :=
  match wires[i]? with
  | some w => w.absolute_latency
  | none => CALCULATE_LATENCY_LATER

/-- The inner fold of the needed-until loop: the running `max` of `init`
and the fanout targets' absolute latencies. -/
def needed_until_fold (wires : List RealWire) (init : Int)
    (target_fanouts : List FanInOut) : Int :=
  target_fanouts.foldl (fun acc e => max acc (wire_absolute_latency wires e.other)) init

/-- The needed-until loop of `compute_latencies`: each wire's
`needed_until` becomes the running `max` of its own absolute latency and
its fanout targets' absolute latencies. -/
def compute_needed_untils (wires : List RealWire) (fanouts : List (List FanInOut)) :
    List RealWire :=
  wires.enum.map fun iw =>
    { iw.2 with
      needed_until := needed_until_fold wires iw.2.absolute_latency ((fanouts[iw.1]?).getD []) }

/-- The final loop of `compute_latencies`: every instantiated interface
port's exported latency is overwritten from its wire. -/
def update_interface_ports (ports : List (Option InterfacePort))
    (wires : List RealWire) : List (Option InterfacePort) :=
  ports.map fun p =>
    p.map fun q => { q with absolute_latency := wire_absolute_latency wires q.wire }

/-- Embedding of `InstantiationContext::compute_latencies` (wire/port state
only; diagnostics are modelled separately by the error-placement functions
below).  On `Ok` the solved latencies are written to the wires; on `Err`
the wires keep their pending values — and in both cases the needed-until
loop and the interface-port update still run. -/
def compute_latencies (solve : LatencySolver) (ctx : InstantiationContext) :
    InstantiationContext :=
  let fi := make_fanins ctx
  let fanouts := convert_fanin_to_fanout fi.1
  let wires1 := match solve fi.1 fanouts (latency_inputs ctx) (latency_outputs ctx) fi.2 with
    | .ok latencies => update_wire_latencies ctx.wires latencies
    | .error _ => ctx.wires
  let wires2 := compute_needed_untils wires1 fanouts
  { ctx with wires := wires2,
             interface_ports := update_interface_ports ctx.interface_ports wires2 }

/-! ### Error placement for `NetPositiveLatencyCycle` (claim C7) -/

/-- Embedding of `PathMuxSource`: a multiplexer input lying on the conflict
path, with its destination wire and that wire's latency on the path. -/
structure PathMuxSource where
  to_wire : RealWire
  to_latency : Int
  mux_input : MultiplexerSource
deriving DecidableEq

/-- The `windows(2)` view of a conflict path. -/
def windows2 : List SpecifiedLatency → List (SpecifiedLatency × SpecifiedLatency)
  | a :: b :: rest => (a, b) :: windows2 (b :: rest)
  | _ => []

/-- Embedding of `gather_all_mux_inputs`: for each consecutive path pair
`from → to`, when `to`'s wire is a multiplexer, collect every multiplexer
source among whose visited sources the `from` wire appears. -/
def gather_all_mux_inputs (wires : List RealWire)
    (conflict_iter : List SpecifiedLatency) : List PathMuxSource :=
  (windows2 conflict_iter).flatMap fun ft =>
    match wires[ft.2.wire]? with
    | some to_wire =>
      match to_wire.source with
      | .multiplexer _ sources =>
        sources.filterMap fun s =>
          if s.for_each_source.contains ft.1.wire then
            some ⟨to_wire, ft.2.latency, s⟩
          else none
      | _ => []
    | none => []

/-- Embedding of `WriteModifiers` as imported by `latency_count.rs` (from
the flattening module of its revision, not among the sources): here every
`Connection` carries its register-annotation span. -/
inductive WriteModifiers where
  | connection (num_regs : Int) (regs_span : Span) : WriteModifiers
  | initialWrite (initial_kw_span : Span) : WriteModifiers
deriving DecidableEq

/-- The `crate::flattening::Write` fields `latency_count.rs` reads:
the modifiers and the target span `wr.to.span`. -/
structure LatWrite where
  write_modifiers : WriteModifiers
  to_span : Span
deriving DecidableEq

/-- An instruction-arena entry as seen by `filter_unique_write_flats`
(`unwrap_write` panics unless the entry is a `Write`). -/
inductive LatInstruction where
  | write (w : LatWrite) : LatInstruction
  | otherInstr : LatInstruction
deriving DecidableEq

/-- Recursion for `filter_unique_write_flats`: dedup by the originating
write instruction (pointer equality of arena entries, i.e. equality of
`original_connection` ids); entries that are not `Write`s would panic in
the source and are skipped here. -/
def filter_unique_write_flats_go (instructions : List LatInstruction)
    (seen : List Nat) : List PathMuxSource → List LatWrite
  | [] => []
  | w :: rest =>
    let oc := w.mux_input.from_in.original_connection
    if seen.contains oc then filter_unique_write_flats_go instructions seen rest
    else
      match instructions[oc]? with
      | some (.write wr) => wr :: filter_unique_write_flats_go instructions (oc :: seen) rest
      | _ => filter_unique_write_flats_go instructions seen rest

/-- Embedding of `filter_unique_write_flats`. -/
def filter_unique_write_flats (writes : List PathMuxSource)
    (instructions : List LatInstruction) : List LatWrite :=
  filter_unique_write_flats_go instructions [] writes

/-- The first reporting pass over the unique writes of a net-positive
cycle: place an error at each `Connection` write's register-annotation span
when it has `num_regs >= 1`, recording whether any error was placed; an
`Initial` write hits the source's `unreachable!` (the `Except.error`
case). -/
def cycle_first_pass : List LatWrite → Except Unit (Bool × List Span)
  | [] => .ok (false, [])
  | wr :: rest =>
    match wr.write_modifiers with
    | .connection num_regs regs_span =>
      match cycle_first_pass rest with
      | .error e => .error e
      | .ok dp =>
        if num_regs ≥ 1 then .ok (true, regs_span :: dp.2) else .ok dp
    | .initialWrite _ => .error ()

/-- Embedding of the `NetPositiveLatencyCycle` reporting of
`compute_latencies` (spans only; the message text is orthogonal to where
the errors attach): registers first, and only if no register annotation
placed an error, fall back to each write's target span. -/
def net_positive_cycle_error_spans (unique_write_instructions : List LatWrite) :
    Except Unit (List Span) :=
  match cycle_first_pass unique_write_instructions with
  | .error e => .error e
  | .ok (true, spans) => .ok spans
  | .ok (false, _) => .ok (unique_write_instructions.map (·.to_span))

/-- Whether a write carries a register annotation with `num_regs >= 1`. -/
def write_has_registers (wr : LatWrite) : Bool :=
  match wr.write_modifiers with
  | .connection num_regs _ => decide (num_regs ≥ 1)
  | .initialWrite _ => false

/-- The register-annotation span of a write (the `Initial` case is
unreachable wherever this is used under a `write_has_registers` filter). -/
def write_regs_span (wr : LatWrite) : Span :=
  match wr.write_modifiers with
  | .connection _ regs_span => regs_span
  | .initialWrite initial_kw_span => initial_kw_span

/-! ### Concrete instances used by witnesses and counterexamples -/

/-- An instantiation with two wires both mapped as ports of one sub-module
whose callee input port has latency `0` and callee output port latency `1`
— the configuration for which the spec promises two-way latency edges. -/
def c1_ctx : InstantiationContext :=
  { wires := [⟨"a", .readOnly, 0, CALCULATE_LATENCY_LATER, 0⟩,
              ⟨"b", .outPort 0 1, 1, CALCULATE_LATENCY_LATER, 0⟩],
    submodules := [⟨[0, 1], [some ⟨true, 0⟩, some ⟨false, 1⟩]⟩],
    interface_ports := [] }

/-- A solver stub answering latencies `[0, 1]`. -/
def c2_solver : LatencySolver := fun _ _ _ _ _ => .ok [0, 1]

/-- A two-wire instantiation where wire `1` combinatorially reads wire `0`. -/
def c2_ctx : InstantiationContext :=
  { wires := [⟨"x", .constantVal, 0, CALCULATE_LATENCY_LATER, 0⟩,
              ⟨"y", .unaryOpWire 0, 1, CALCULATE_LATENCY_LATER, 0⟩],
    submodules := [],
    interface_ports := [] }

/-- Wire `0` of `c2_ctx` after `compute_latencies` with `c2_solver`:
latency `0`, needed until its fanout target's latency `1`. -/
def c2_expected_wire : RealWire := ⟨"x", .constantVal, 0, 0, 1⟩

/-- A solver stub failing with a net-positive latency cycle. -/
def c9_solver : LatencySolver := fun _ _ _ _ _ =>
  .error (.netPositiveLatencyCycle [] 1)

/-- A one-wire one-port instantiation whose wire latency is still pending. -/
def c9_ctx : InstantiationContext :=
  { wires := [⟨"w", .constantVal, 0, CALCULATE_LATENCY_LATER, 0⟩],
    submodules := [],
    interface_ports := [some ⟨true, 0, 0⟩] }

/-- Two multiplexer wires driving each other, for the conflict path of the
net-positive-cycle reporting witness. -/
def c7_wires : List RealWire :=
  [⟨"a", .multiplexer true [⟨[], ⟨1, none, 1, 0⟩⟩], 0, 0, 0⟩,
   ⟨"b", .multiplexer false [⟨[], ⟨0, none, 0, 1⟩⟩], 1, 0, 0⟩]

/-- A conflict path visiting wire `1`, wire `0`, then wire `1` again. -/
def c7_path : List SpecifiedLatency := [⟨1, 0⟩, ⟨0, 1⟩, ⟨1, 1⟩]

/-- The originating writes: one with a `reg` annotation (`num_regs = 1`),
one without. -/
def c7_instructions : List LatInstruction :=
  [.write ⟨.connection 1 (10, 11), (1, 2)⟩,
   .write ⟨.connection 0 (0, 0), (3, 4)⟩]

/-- A six-instruction module body: a runtime declaration, a generative
declaration, a condition wire reading the runtime declaration, a runtime
`if` spanning instructions 4–5, a source wire, and a `Connection` write to
the generative declaration inside the runtime `if`. -/
def c6_instrs : List Instruction :=
  [.declaration ⟨.localKind, false, none, []⟩,
   .declaration ⟨.generativeKind, false, none, []⟩,
   .wire ⟨true, (20, 21), .wireRead 0⟩,
   .ifStatement ⟨2, 4, 6, 6⟩,
   .wire ⟨true, (40, 41), .wireRead 0⟩,
   .write ⟨.connection 0 none, 4, ⟨1, (50, 51)⟩⟩]

/-- The write instruction at position 5 of `c6_instrs`. -/
def c6_w : FlatWrite := ⟨.connection 0 none, 4, ⟨1, (50, 51)⟩⟩

/-- The generative declaration at position 1 of `c6_instrs`. -/
def c6_decl : Declaration := ⟨.generativeKind, false, none, []⟩

/-- The source wire of the write, as the pass has computed it by iteration
5: reading the runtime declaration 0 makes it non-compile-time. -/
def c6_fw : WireInstance := ⟨false, (40, 41), .wireRead 0⟩

/-! ## Shared list lemmas -/

theorem flatMap_eq_nil_of {α β : Type} (l : List α) (f : α → List β)
    (h : ∀ x, f x = []) : l.flatMap f = [] := by
  induction l with
  | nil => rfl
  | cons a t ih => simp [List.flatMap_cons, h a, ih]

/-! ## Claim C10: `Linker::get_module_id` -/

/-- C10: `get_module_id` returns `some id` exactly when the namespace binds
the name to a unique non-collision entry that is a module; it returns
`none` alike for absent names, collision sets (even all-module ones), and
types or constants. -/
theorem get_module_id_characterization (ns : GlobalNamespace) (name : String) :
    (∀ id, get_module_id ns name = some id ↔
      ns name = some (.global (.module id))) ∧
    (get_module_id ns name = none ↔
      ∀ id, ns name ≠ some (.global (.module id))) := by
  cases h : ns name with
  | none => simp [get_module_id, h]
  | some el =>
    cases el with
    | global g =>
      cases g with
      | module id => simp [get_module_id, h]
      | namedType id => simp [get_module_id, h]
      | namedConstant id => simp [get_module_id, h]
    | colission l => simp [get_module_id, h]

/-! ## Claim C8: `typecheck` panics on `Error`/`Error` and `Unknown`/`Unknown` -/

/-- C8: `Type::Error` and `Type::Unknown` compare unequal to every type
(including themselves), so `typecheck` with identical `Error` or `Unknown`
arguments enters the error branch, renders two identical names, and the
`assert!(expected_name != found_name)` fails: the call panics. -/
theorem typecheck_same_error_or_unknown_panics :
    (∀ t, typEq .error t = false) ∧ (∀ t, typEq .unknown t = false) ∧
    (∀ context linkerNames,
      typToString linkerNames .error = typToString linkerNames .error ∧
      typecheck .error .error context linkerNames = .panicked ∧
      typecheck .unknown .unknown context linkerNames = .panicked) := by
  refine ⟨fun t => ?_, fun t => ?_, fun context linkerNames => ⟨rfl, ?_, ?_⟩⟩
  · cases t <;> rfl
  · cases t <;> rfl
  · simp [typecheck, typEq, typToString]
  · simp [typecheck, typEq, typToString]

/-! ## Claim C5: the `read_only` flag of flattened declarations -/

/-- C5: a flattened declaration is `read_only` exactly when it is an
interface port with `is_input XOR IS_SUBMODULE` — an input port seen from
inside the module or an output port of a sub-module seen from the caller —
or the `for`-loop iterator; left-expression declarations (assigned or
free-standing) always get `false`.  The first conjunct records that
`initialize_interface` flattens port `idx` with the port origin
`is_input = idx < outputs_start`. -/
theorem read_only_iff_input_port_or_submodule_output_or_iterator :
    (∀ IS_SUBMODULE num_ports outputs_start idx,
      (initialize_interface IS_SUBMODULE num_ports outputs_start)[idx]? =
        if idx < num_ports then
          some (flattened_read_only
            (.interfacePort (decide (idx < outputs_start)) IS_SUBMODULE))
        else none) ∧
    (∀ o : DeclOrigin, flattened_read_only o = true ↔
      o = .interfacePort true false ∨ o = .interfacePort false true ∨
      o = .forLoopIterator) := by
  constructor
  · intro IS_SUBMODULE num_ports outputs_start idx
    simp [initialize_interface, flattened_read_only, List.getElem?_map,
      List.getElem?_range]
    split <;> simp_all
  · intro o
    cases o with
    | interfacePort is_input IS_SUBMODULE =>
      cases is_input <;> cases IS_SUBMODULE <;>
        simp [flattened_read_only, port_read_only]
    | leftExprDeclaration gets_assigned => simp [flattened_read_only]
    | forLoopIterator => simp [flattened_read_only]

/-! ## Claim C4: `mangle` idempotence and output characters -/

theorem rustIsAlphanumeric_not_dropped (c : Char)
    (h : rustIsAlphanumeric c = true) :
    rustIsWhitespace c = false ∧ (c == ':') = false := by
  simp only [rustIsAlphanumeric, decide_eq_true_eq] at h
  constructor
  · simp only [rustIsWhitespace, decide_eq_false_iff_not]
    omega
  · have hne : c.toNat ≠ 58 := by omega
    exact beq_eq_false_iff_ne.mpr (fun hc => hne (by rw [hc]; rfl))

theorem mangle_output_chars (s : List Char) :
    ∀ c ∈ mangle s, rustIsAlphanumeric c = true ∨ c = '_' := by
  induction s with
  | nil => intro c hc; simp [mangle] at hc
  | cons a rest ih =>
    intro c hc
    rw [mangle] at hc
    split at hc
    · exact ih c hc
    · rcases List.mem_cons.mp hc with hc1 | hc2
      · by_cases ha : rustIsAlphanumeric a = true
        · left; rw [hc1, if_pos ha]; exact ha
        · right; rw [hc1, if_neg ha]
      · exact ih c hc2

theorem mangle_mem_of_mem (s : List Char) :
    ∀ c ∈ mangle s, c ∈ s ∨ c = '_' := by
  induction s with
  | nil => intro c hc; simp [mangle] at hc
  | cons a rest ih =>
    intro c hc
    rw [mangle] at hc
    split at hc
    · rcases ih c hc with h | h
      · exact Or.inl (List.mem_cons_of_mem a h)
      · exact Or.inr h
    · rcases List.mem_cons.mp hc with hc1 | hc2
      · by_cases ha : rustIsAlphanumeric a = true
        · rw [hc1, if_pos ha]; exact Or.inl (List.mem_cons_self a rest)
        · rw [hc1, if_neg ha]; exact Or.inr rfl
      · rcases ih c hc2 with h | h
        · exact Or.inl (List.mem_cons_of_mem a h)
        · exact Or.inr h

theorem mangle_skips_underscore (rest : List Char) :
    mangle ('_' :: rest) = '_' :: mangle rest := by
  have h0 : rustIsWhitespace '_' = false := by decide
  have h1 : ('_' == ':') = false := by decide
  have h2 : rustIsAlphanumeric '_' = false := by decide
  simp [mangle, h0, h1, h2]

theorem mangle_keeps_alphanumeric (a : Char) (rest : List Char)
    (ha : rustIsAlphanumeric a = true) :
    mangle (a :: rest) = a :: mangle rest := by
  obtain ⟨hw, hcol⟩ := rustIsAlphanumeric_not_dropped a ha
  rw [mangle, hw, hcol, if_pos ha]
  rfl

theorem mangle_idempotent (s : List Char) : mangle (mangle s) = mangle s := by
  induction s with
  | nil => rfl
  | cons a rest ih =>
    rw [mangle]
    split
    · exact ih
    · by_cases ha : rustIsAlphanumeric a = true
      · rw [if_pos ha, mangle_keeps_alphanumeric a (mangle rest) ha, ih]
      · rw [if_neg ha, mangle_skips_underscore, ih]

theorem ascii_alphanumeric_is_word_char (c : Char)
    (ha : rustIsAlphanumeric c = true) (hlt : c.toNat < 128) :
    isAsciiWordChar c = true := by
  simp only [rustIsAlphanumeric, decide_eq_true_eq] at ha
  simp only [isAsciiWordChar, decide_eq_true_eq]
  omega

/-- C4 (amended): `mangle` is idempotent, every output character is
(Unicode-)alphanumeric or `_`, and over ASCII inputs the output stays in
`[A-Za-z0-9_]`; non-ASCII alphanumeric characters, however, pass through
unchanged, so P6's `[A-Za-z0-9_]` guarantee holds only for ASCII input. -/
theorem mangle_idempotent_and_word_chars (s : List Char) :
    mangle (mangle s) = mangle s ∧
    (∀ c ∈ mangle s, rustIsAlphanumeric c = true ∨ c = '_') ∧
    ((∀ c ∈ s, c.toNat < 128) → ∀ c ∈ mangle s, isAsciiWordChar c = true) := by
  refine ⟨mangle_idempotent s, mangle_output_chars s, fun hascii c hc => ?_⟩
  rcases mangle_output_chars s c hc with h | h
  · rcases mangle_mem_of_mem s c hc with hm | hm
    · exact ascii_alphanumeric_is_word_char c h (hascii c hm)
    · rw [hm]; rfl
  · rw [h]; rfl

/-- C4 (counterexample): the claim promises every character of `mangle(s)`
lies in `[A-Za-z0-9_]`, but the Latin-1 letter `é` is alphanumeric to the
source's `char::is_alphanumeric`, survives `mangle` unchanged, and is not
in that class. -/
theorem mangle_output_not_ascii_counterexample :
    mangle ['é'] = ['é'] ∧ isAsciiWordChar 'é' = false := by
  constructor
  · have h0 : rustIsWhitespace 'é' = false := by decide
    have h1 : ('é' == ':') = false := by decide
    have h2 : rustIsAlphanumeric 'é' = true := by decide
    simp [mangle, h0, h1, h2]
  · rfl

/-- Witness for the amended C4 theorem at the concrete input `"a b:c!"`
(its ASCII hypothesis discharged by `decide`). -/
theorem mangle_idempotent_and_word_chars_witness :
    mangle (mangle ['a', ' ', 'b', ':', 'c', '!']) =
      mangle ['a', ' ', 'b', ':', 'c', '!'] ∧
    (∀ c ∈ mangle ['a', ' ', 'b', ':', 'c', '!'], isAsciiWordChar c = true) := by
  obtain ⟨h1, _, h3⟩ := mangle_idempotent_and_word_chars ['a', ' ', 'b', ':', 'c', '!']
  exact ⟨h1, h3 (by decide)⟩

/-! ## Claim C3: adding then removing a file's globals -/

theorem elemsOf_add_name (ns : GlobalNamespace) (name : String)
    (new_obj_id : NameElem) (n : String) :
    elemsOf (add_name ns name new_obj_id n) =
      if n = name then elemsOf (ns n) ++ [new_obj_id] else elemsOf (ns n) := by
  unfold add_name
  by_cases h : n = name
  · rw [if_pos h, if_pos h, h]
    cases hn : ns name with
    | none => simp [elemsOf]
    | some el => cases el <;> simp [elemsOf]
  · rw [if_neg h, if_neg h]

theorem register_associated_values (adds : List (String × Nat)) :
    ∀ st : LinkerNamespaceState,
      (register_file_globals st adds).associated_values =
        st.associated_values ++ adds.map (fun p => NameElem.module p.2) := by
  induction adds with
  | nil => intro st; simp [register_file_globals]
  | cons p rest ih =>
    intro st
    show (register_file_globals (add_module st p.1 p.2) rest).associated_values = _
    rw [ih]
    simp [add_module]

theorem register_elems (adds : List (String × Nat)) :
    ∀ (st : LinkerNamespaceState) (n : String),
      elemsOf ((register_file_globals st adds).global_namespace n) =
        elemsOf (st.global_namespace n) ++
          (adds.filter (fun p => p.1 = n)).map (fun p => NameElem.module p.2) := by
  induction adds with
  | nil => intro st n; simp [register_file_globals]
  | cons p rest ih =>
    intro st n
    show elemsOf ((register_file_globals (add_module st p.1 p.2) rest).global_namespace n) = _
    rw [ih]
    show elemsOf (add_name st.global_namespace p.1 (.module p.2) n) ++ _ = _
    rw [elemsOf_add_name]
    by_cases h : n = p.1
    · rw [if_pos h]
      have h2 : p.1 = n := h.symm
      simp [List.filter_cons, h2]
    · rw [if_neg h]
      have h2 : ¬(p.1 = n) := fun hh => h hh.symm
      simp [List.filter_cons, h2]

theorem elemsOf_remove (rm : List NameElem) (ob : Option NamespaceElement) :
    elemsOf (ob.bind (remove_element rm)) =
      (elemsOf ob).filter (fun g => !(decide (g ∈ rm))) := by
  cases ob with
  | none => rfl
  | some el =>
    cases el with
    | global g =>
      show elemsOf (remove_element rm (.global g)) = _
      by_cases hmem : g ∈ rm <;> simp [remove_element, elemsOf, hmem]
    | colission coll =>
      show elemsOf (remove_element rm (.colission coll)) = _
      by_cases h : (coll.filter (fun g => !(rm.contains g))).length > 0
      · simp only [remove_element, if_pos h, elemsOf]
        simp
      · simp only [remove_element, if_neg h, elemsOf]
        have h0 : coll.filter (fun g => !(rm.contains g)) = [] :=
          List.length_eq_zero.mp (Nat.eq_zero_of_not_pos h)
        simp only [List.contains_eq_any_beq] at h0 ⊢
        simp at h0
        simp
        exact h0

/-- C3 (amended): registering a file's modules and then removing the file
restores, for every name, the exact sequence of globals bound to that name
(provided the allocated module ids are fresh) — though not necessarily the
same `NamespaceElement` representation, since a unique global the file
collided with survives as a one-element collision set. -/
theorem add_then_remove_restores_bindings (ns : GlobalNamespace)
    (adds : List (String × Nat))
    (hfresh : ∀ p ∈ adds, ∀ n, NameElem.module p.2 ∉ elemsOf (ns n)) :
    ∀ n, elemsOf ((remove_everything_in_file
        (register_file_globals ⟨ns, []⟩ adds)).global_namespace n) = elemsOf (ns n) := by
  intro n
  show elemsOf (((register_file_globals ⟨ns, []⟩ adds).global_namespace n).bind
    (remove_element (register_file_globals ⟨ns, []⟩ adds).associated_values)) = _
  rw [elemsOf_remove, register_associated_values, register_elems]
  dsimp only
  rw [List.nil_append, List.filter_append]
  have h1 : (elemsOf (ns n)).filter
      (fun g => !(decide (g ∈ adds.map (fun p => NameElem.module p.2)))) =
      elemsOf (ns n) := by
    rw [List.filter_eq_self]
    intro g hg
    simp only [Bool.not_eq_true', decide_eq_false_iff_not, List.mem_map]
    rintro ⟨p, hp, hpg⟩
    exact hfresh p hp n (hpg ▸ hg)
  have h2 : ((adds.filter (fun p => p.1 = n)).map (fun p => NameElem.module p.2)).filter
      (fun g => !(decide (g ∈ adds.map (fun p => NameElem.module p.2)))) = [] := by
    rw [List.filter_eq_nil_iff]
    intro g hg
    obtain ⟨p, hp, hpg⟩ := List.mem_map.mp hg
    simp only [Bool.not_eq_true', decide_eq_false_iff_not, not_not]
    exact List.mem_map.mpr ⟨p, List.mem_of_mem_filter hp, hpg⟩
  rw [h1, h2, List.append_nil]

/-- C3 (counterexample): starting from a namespace binding `m` to a unique
global module and registering a second module also named `m`, removal
leaves `m` bound to the one-element collision set, not to the original
unique-global entry: the namespace is not restored. -/
theorem add_then_remove_changes_namespace :
    (remove_everything_in_file
        (register_file_globals exState0 [("m", 1)])).global_namespace "m" =
      some (.colission [.module 0]) ∧
    exState0.global_namespace "m" = some (.global (.module 0)) ∧
    (remove_everything_in_file
        (register_file_globals exState0 [("m", 1)])).global_namespace "m" ≠
      exState0.global_namespace "m" := by
  refine ⟨by decide, by decide, by decide⟩

/-- Witness for the amended C3 theorem: the freshness hypothesis holds for
`exNs` with the single addition `("m", 1)`, and the bindings of `m` are
restored. -/
theorem add_then_remove_restores_bindings_witness :
    (∀ p ∈ [("m", 1)], ∀ n, NameElem.module p.2 ∉ elemsOf (exNs n)) ∧
    elemsOf ((remove_everything_in_file
        (register_file_globals ⟨exNs, []⟩ [("m", 1)])).global_namespace "m") =
      elemsOf (exNs "m") := by
  have hfresh : ∀ p ∈ [("m", 1)], ∀ n, NameElem.module p.2 ∉ elemsOf (exNs n) := by
    intro p hp n
    have hp2 : p = ("m", 1) := by simpa using hp
    subst hp2
    by_cases hn : n = "m"
    · subst hn; simp [exNs, elemsOf]
    · simp [exNs, hn, elemsOf]
  exact ⟨hfresh, add_then_remove_restores_bindings exNs [("m", 1)] hfresh "m"⟩

/-! ## Claim C1: sub-module latency edges in `make_fanins` -/

/-- C1: the guard `other_port_in_submodule.is_input ==
!other_port_in_submodule.is_input` compares a value with its own negation
and is always false, so the sub-module loop of `make_fanins` never adds a
single latency edge — in particular not for `c1_ctx`, whose sub-module has
an instantiated input port (latency 0) and output port (latency 1) mapped
to wires 0 and 1, the exact configuration for which the spec promises a
two-way `out_latency − in_latency` edge pair. -/
theorem submodule_latency_edges_never_added :
    (∀ (submodules : List SubModule) (id : Nat),
      submodule_fanins_for submodules id = []) ∧
    (make_fanins c1_ctx).1 = [[], []] ∧
    c1_ctx.submodules = [⟨[0, 1], [some ⟨true, 0⟩, some ⟨false, 1⟩]⟩] := by
  refine ⟨fun submodules id => ?_, by decide, by decide⟩
  apply flatMap_eq_nil_of
  intro sub_mod
  apply flatMap_eq_nil_of
  intro pw
  by_cases h : pw.2 ≠ id
  · simp only [submodule_fanins_for, if_pos h]
  · simp only [submodule_fanins_for, if_neg h]
    cases hm : sub_mod.interface_ports[pw.1]? with
    | none => rfl
    | some o =>
      cases o with
      | none => rfl
      | some port_in_submodule =>
        apply flatMap_eq_nil_of
        intro opp
        cases ho : opp.2 with
        | none => rfl
        | some other_port =>
          cases hio : other_port.is_input <;> simp

/-! ## Claim C7: error placement for net-positive latency cycles -/

theorem cycle_first_pass_characterization :
    ∀ (l : List LatWrite),
      (∀ wr ∈ l, ∃ num_regs regs_span,
        wr.write_modifiers = .connection num_regs regs_span) →
      cycle_first_pass l =
        .ok (l.any write_has_registers,
          (l.filter write_has_registers).map write_regs_span) := by
  intro l
  induction l with
  | nil => intro _; rfl
  | cons wr rest ih =>
    intro h
    obtain ⟨n, sp, hm⟩ := h wr (List.mem_cons_self wr rest)
    have hrest := ih (fun w hw => h w (List.mem_cons_of_mem wr hw))
    by_cases hn : n ≥ 1
    · have hreg : write_has_registers wr = true := by
        simp [write_has_registers, hm, hn]
      have hspan : write_regs_span wr = sp := by simp [write_regs_span, hm]
      simp [cycle_first_pass, hm, hrest, hn, hreg, hspan]
    · have hreg : write_has_registers wr = false := by
        simp [write_has_registers, hm]
        omega
      simp [cycle_first_pass, hm, hrest, hn, hreg]

/-- C7: for a net-positive latency cycle whose distinct originating writes
(along the conflict path) are all `Connection` writes, the error is placed
at the register-annotation span of exactly those writes with
`num_regs >= 1`; only when no write on the cycle carries a register
annotation is it instead placed at each distinct write's target span. -/
theorem net_positive_cycle_error_placement
    (wires : List RealWire) (conflict_path : List SpecifiedLatency)
    (instructions : List LatInstruction)
    (h : ∀ wr ∈ filter_unique_write_flats
        (gather_all_mux_inputs wires conflict_path) instructions,
      ∃ num_regs regs_span, wr.write_modifiers = .connection num_regs regs_span) :
    net_positive_cycle_error_spans
        (filter_unique_write_flats (gather_all_mux_inputs wires conflict_path)
          instructions) =
      .ok (if (filter_unique_write_flats (gather_all_mux_inputs wires conflict_path)
            instructions).any write_has_registers then
          ((filter_unique_write_flats (gather_all_mux_inputs wires conflict_path)
            instructions).filter write_has_registers).map write_regs_span
        else
          (filter_unique_write_flats (gather_all_mux_inputs wires conflict_path)
            instructions).map (fun wr => wr.to_span)) := by
  have hc := cycle_first_pass_characterization
    (filter_unique_write_flats (gather_all_mux_inputs wires conflict_path) instructions) h
  unfold net_positive_cycle_error_spans
  rw [hc]
  cases ha : (filter_unique_write_flats (gather_all_mux_inputs wires conflict_path)
      instructions).any write_has_registers
  · simp
  · simp

/-- Witness for C7 on a concrete two-write cycle: the only error span is
the register annotation of the `num_regs = 1` write. -/
theorem net_positive_cycle_error_placement_witness :
    (∀ wr ∈ filter_unique_write_flats
        (gather_all_mux_inputs c7_wires c7_path) c7_instructions,
      ∃ num_regs regs_span, wr.write_modifiers = .connection num_regs regs_span) ∧
    net_positive_cycle_error_spans
        (filter_unique_write_flats (gather_all_mux_inputs c7_wires c7_path)
          c7_instructions) = .ok [(10, 11)] := by
  have huw : filter_unique_write_flats (gather_all_mux_inputs c7_wires c7_path)
      c7_instructions =
      [⟨.connection 1 (10, 11), (1, 2)⟩, ⟨.connection 0 (0, 0), (3, 4)⟩] := by decide
  have h : ∀ wr ∈ filter_unique_write_flats
      (gather_all_mux_inputs c7_wires c7_path) c7_instructions,
      ∃ num_regs regs_span, wr.write_modifiers = .connection num_regs regs_span := by
    rw [huw]
    intro wr hwr
    rcases List.mem_cons.mp hwr with h1 | h2
    · exact ⟨1, (10, 11), by rw [h1]⟩
    · have h3 : wr = ⟨.connection 0 (0, 0), (3, 4)⟩ := by simpa using h2
      exact ⟨0, (0, 0), by rw [h3]⟩
  refine ⟨h, ?_⟩
  rw [net_positive_cycle_error_placement c7_wires c7_path c7_instructions h, huw]
  rfl

/-! ## Claim C2: `needed_until` is the fanout maximum -/

theorem needed_until_fold_cons (wires : List RealWire) (init : Int)
    (e : FanInOut) (t : List FanInOut) :
    needed_until_fold wires init (e :: t) =
      needed_until_fold wires (max init (wire_absolute_latency wires e.other)) t := rfl

theorem needed_until_fold_ge_init (wires : List RealWire) :
    ∀ (l : List FanInOut) (init : Int), init ≤ needed_until_fold wires init l := by
  intro l
  induction l with
  | nil => intro init; exact le_refl init
  | cons e t ih =>
    intro init
    rw [needed_until_fold_cons]
    exact le_trans (le_max_left _ _) (ih _)

theorem needed_until_fold_ge_mem (wires : List RealWire) :
    ∀ (l : List FanInOut) (init : Int) (e : FanInOut), e ∈ l →
      wire_absolute_latency wires e.other ≤ needed_until_fold wires init l := by
  intro l
  induction l with
  | nil => intro init e he; cases he
  | cons a t ih =>
    intro init e he
    rw [needed_until_fold_cons]
    rcases List.mem_cons.mp he with h | h
    · subst h
      exact le_trans (le_max_right _ _) (needed_until_fold_ge_init wires t _)
    · exact ih _ e h

theorem needed_until_fold_attained (wires : List RealWire) :
    ∀ (l : List FanInOut) (init : Int),
      needed_until_fold wires init l = init ∨
      ∃ e ∈ l, needed_until_fold wires init l = wire_absolute_latency wires e.other := by
  intro l
  induction l with
  | nil => intro init; exact Or.inl rfl
  | cons a t ih =>
    intro init
    rw [needed_until_fold_cons]
    rcases ih (max init (wire_absolute_latency wires a.other)) with h | ⟨e, he, hee⟩
    · rcases max_choice init (wire_absolute_latency wires a.other) with hm | hm
      · exact Or.inl (by rw [h, hm])
      · exact Or.inr ⟨a, List.mem_cons_self a t, by rw [h, hm]⟩
    · exact Or.inr ⟨e, List.mem_cons_of_mem a he, hee⟩

theorem compute_needed_untils_getElem (ws : List RealWire)
    (fo : List (List FanInOut)) (i : Nat) :
    (compute_needed_untils ws fo)[i]? = (ws[i]?).map (fun w =>
      { w with needed_until :=
          needed_until_fold ws w.absolute_latency ((fo[i]?).getD []) }) := by
  unfold compute_needed_untils
  rw [List.getElem?_map, List.getElem?_enum]
  cases ws[i]? <;> rfl

theorem compute_needed_untils_abs (ws : List RealWire)
    (fo : List (List FanInOut)) (i : Nat) :
    wire_absolute_latency (compute_needed_untils ws fo) i =
      wire_absolute_latency ws i := by
  unfold wire_absolute_latency
  rw [compute_needed_untils_getElem]
  cases ws[i]? <;> rfl

theorem needed_until_is_max (ws : List RealWire) (fo : List (List FanInOut))
    (i : Nat) (w : RealWire)
    (hw : (compute_needed_untils ws fo)[i]? = some w) :
    w.absolute_latency ≤ w.needed_until ∧
    (∀ e ∈ (fo[i]?).getD [],
      wire_absolute_latency (compute_needed_untils ws fo) e.other ≤ w.needed_until) ∧
    (w.needed_until = w.absolute_latency ∨
      ∃ e ∈ (fo[i]?).getD [],
        w.needed_until = wire_absolute_latency (compute_needed_untils ws fo) e.other) := by
  rw [compute_needed_untils_getElem] at hw
  cases hws : ws[i]? with
  | none => rw [hws] at hw; cases hw
  | some w0 =>
    rw [hws] at hw
    have hw2 := Option.some.inj hw
    subst hw2
    refine ⟨needed_until_fold_ge_init ws _ _, fun e he => ?_, ?_⟩
    · rw [compute_needed_untils_abs]
      exact needed_until_fold_ge_mem ws _ _ e he
    · rcases needed_until_fold_attained ws ((fo[i]?).getD []) w0.absolute_latency
        with h | ⟨e, he, hee⟩
      · exact Or.inl h
      · exact Or.inr ⟨e, he, by rw [compute_needed_untils_abs]; exact hee⟩

/-- C2: after `compute_latencies` returns, every wire's `needed_until` is
exactly the maximum of its own final absolute latency and the final
absolute latencies of its fanout targets (the targets of the latency edges
leaving it): it dominates all of them and is attained by one of them. -/
theorem compute_latencies_needed_until_is_max (solve : LatencySolver)
    (ctx : InstantiationContext) (i : Nat) (w : RealWire)
    (hw : (compute_latencies solve ctx).wires[i]? = some w) :
    w.absolute_latency ≤ w.needed_until ∧
    (∀ e ∈ ((convert_fanin_to_fanout (make_fanins ctx).1)[i]?).getD [],
      wire_absolute_latency (compute_latencies solve ctx).wires e.other ≤
        w.needed_until) ∧
    (w.needed_until = w.absolute_latency ∨
      ∃ e ∈ ((convert_fanin_to_fanout (make_fanins ctx).1)[i]?).getD [],
        w.needed_until =
          wire_absolute_latency (compute_latencies solve ctx).wires e.other) := by
  have hws1 : (compute_latencies solve ctx).wires =
      compute_needed_untils
        (match solve (make_fanins ctx).1
            (convert_fanin_to_fanout (make_fanins ctx).1)
            (latency_inputs ctx) (latency_outputs ctx) (make_fanins ctx).2 with
          | .ok latencies => update_wire_latencies ctx.wires latencies
          | .error _ => ctx.wires)
        (convert_fanin_to_fanout (make_fanins ctx).1) := rfl
  rw [hws1] at hw ⊢
  exact needed_until_is_max _ _ i w hw

/-- Witness for C2 on `c2_ctx` with a successful solver: wire 0 gets
`needed_until = 1`, the maximum of its own latency `0` and its fanout
target's latency `1`. -/
theorem compute_latencies_needed_until_is_max_witness :
    (compute_latencies c2_solver c2_ctx).wires[0]? = some c2_expected_wire ∧
    (c2_expected_wire.absolute_latency ≤ c2_expected_wire.needed_until ∧
    (∀ e ∈ ((convert_fanin_to_fanout (make_fanins c2_ctx).1)[0]?).getD [],
      wire_absolute_latency (compute_latencies c2_solver c2_ctx).wires e.other ≤
        c2_expected_wire.needed_until) ∧
    (c2_expected_wire.needed_until = c2_expected_wire.absolute_latency ∨
      ∃ e ∈ ((convert_fanin_to_fanout (make_fanins c2_ctx).1)[0]?).getD [],
        c2_expected_wire.needed_until =
          wire_absolute_latency (compute_latencies c2_solver c2_ctx).wires e.other)) :=
  ⟨by decide,
   compute_latencies_needed_until_is_max c2_solver c2_ctx 0 c2_expected_wire (by decide)⟩

/-! ## Claim C9: `compute_latencies` is not atomic on solver error -/

/-- C9: when the solver fails with any `LatencyCountingError`,
`compute_latencies` still recomputes `needed_until` for every wire (over
the unchanged, possibly still-pending absolute latencies) and still
overwrites every interface port's exported `absolute_latency` from its
wire; the wires' absolute latencies themselves are left as they were, so
pending wires and their ports end up carrying `CALCULATE_LATENCY_LATER`. -/
theorem compute_latencies_not_atomic_on_error (solve : LatencySolver)
    (ctx : InstantiationContext) (e : LatencyCountingError)
    (h : solve (make_fanins ctx).1 (convert_fanin_to_fanout (make_fanins ctx).1)
      (latency_inputs ctx) (latency_outputs ctx) (make_fanins ctx).2 = .error e) :
    (compute_latencies solve ctx).wires =
      compute_needed_untils ctx.wires (convert_fanin_to_fanout (make_fanins ctx).1) ∧
    (∀ i : Nat, ((compute_latencies solve ctx).wires[i]?).map (fun w => w.absolute_latency) =
      (ctx.wires[i]?).map (fun w => w.absolute_latency)) ∧
    (compute_latencies solve ctx).interface_ports =
      update_interface_ports ctx.interface_ports ((compute_latencies solve ctx).wires) := by
  have h1 : compute_latencies solve ctx =
      { ctx with
        wires := compute_needed_untils ctx.wires
          (convert_fanin_to_fanout (make_fanins ctx).1),
        interface_ports := update_interface_ports ctx.interface_ports
          (compute_needed_untils ctx.wires
            (convert_fanin_to_fanout (make_fanins ctx).1)) } := by
    simp only [compute_latencies]
    rw [h]
  rw [h1]
  refine ⟨rfl, fun i => ?_, rfl⟩
  show ((compute_needed_untils ctx.wires _)[i]?).map _ = _
  rw [compute_needed_untils_getElem]
  cases ctx.wires[i]? <;> rfl

/-- Witness for C9: with an error-returning solver, the one pending wire
keeps `CALCULATE_LATENCY_LATER` and the interface port's exported latency
is overwritten with that sentinel. -/
theorem compute_latencies_not_atomic_on_error_witness :
    c9_solver (make_fanins c9_ctx).1
      (convert_fanin_to_fanout (make_fanins c9_ctx).1)
      (latency_inputs c9_ctx) (latency_outputs c9_ctx) (make_fanins c9_ctx).2 =
      .error (.netPositiveLatencyCycle [] 1) ∧
    ((compute_latencies c9_solver c9_ctx).wires =
      compute_needed_untils c9_ctx.wires
        (convert_fanin_to_fanout (make_fanins c9_ctx).1) ∧
    (∀ i : Nat, ((compute_latencies c9_solver c9_ctx).wires[i]?).map
        (fun w => w.absolute_latency) =
      (c9_ctx.wires[i]?).map (fun w => w.absolute_latency)) ∧
    (compute_latencies c9_solver c9_ctx).interface_ports =
      update_interface_ports c9_ctx.interface_ports
        ((compute_latencies c9_solver c9_ctx).wires)) ∧
    (compute_latencies c9_solver c9_ctx).interface_ports =
      [some ⟨true, 0, CALCULATE_LATENCY_LATER⟩] := by
  refine ⟨rfl,
    compute_latencies_not_atomic_on_error c9_solver c9_ctx
      (.netPositiveLatencyCycle [] 1) rfl, by decide⟩

/-! ## Claim C6: `generative_check` on writes to generative declarations

The proof connects the pass's internal runtime-`if` stack to the program
structure: under well-formed `if` ranges, the stack at iteration `i`
(after its pop loop) is exactly `enclosing_runtime_ifs instrs i`, and the
depth recorded for a generative declaration is the number of runtime `if`s
enclosing it. -/

theorem genStateAt_zero (instrs : List Instruction) :
    genStateAt instrs 0 = genInit instrs := rfl

theorem genStateAt_succ (instrs : List Instruction) (i : Nat) :
    genStateAt instrs (i + 1) = genStep (genStateAt instrs i) i := by
  unfold genStateAt
  rw [List.range_succ i, List.foldl_append]
  rfl

theorem popPhase_instructions (s : GenCheckState) (i : Nat) :
    (popPhase s i).instructions = s.instructions := rfl

theorem popPhase_depths (s : GenCheckState) (i : Nat) :
    (popPhase s i).declaration_depths = s.declaration_depths := rfl

theorem popPhase_errors (s : GenCheckState) (i : Nat) :
    (popPhase s i).errors = s.errors := rfl

theorem genBody_instructions (s : GenCheckState) (i : Nat) :
    (genBody s i).instructions =
      match s.instructions[i]? with
      | some (.wire w) => s.instructions.set i
          (.wire { w with is_compiletime := computed_wire_is_generative s.instructions w })
      | _ => s.instructions := by
  cases h : s.instructions[i]? with
  | none => simp [genBody, h]
  | some inst => cases inst <;> simp [genBody, h]

theorem genBody_errors (s : GenCheckState) (i : Nat) :
    (genBody s i).errors = s.errors ++ genStepErrors s i := by
  cases h : s.instructions[i]? with
  | none => simp [genBody, genStepErrors, h]
  | some inst => cases inst <;> simp [genBody, genStepErrors, h]

theorem genBody_stack (s : GenCheckState) (i : Nat) :
    (genBody s i).runtime_if_stack =
      match pushed_runtime_if s.instructions i with
      | some entry => entry :: s.runtime_if_stack
      | none => s.runtime_if_stack := by
  cases h : s.instructions[i]? with
  | none => simp [genBody, pushed_runtime_if, h]
  | some inst => cases inst <;> simp [genBody, pushed_runtime_if, h]

theorem genBody_depths_ne (s : GenCheckState) (i k : Nat) (hk : k ≠ i) :
    (genBody s i).declaration_depths k = s.declaration_depths k := by
  cases h : s.instructions[i]? with
  | none => simp [genBody, h]
  | some inst =>
    cases inst <;> simp [genBody, h]
    split
    · simp [hk]
    · rfl

theorem genBody_depths_decl (s : GenCheckState) (i : Nat) (decl : Declaration)
    (h : s.instructions[i]? = some (.declaration decl))
    (hgen : decl.identifier_type.is_generative = true) :
    (genBody s i).declaration_depths i = some s.runtime_if_stack.length := by
  simp [genBody, h, hgen]

theorem genBody_instructions_ne (s : GenCheckState) (i k : Nat) (hk : k ≠ i) :
    (genBody s i).instructions[k]? = s.instructions[k]? := by
  rw [genBody_instructions]
  cases h : s.instructions[i]? with
  | none => rfl
  | some inst =>
    cases inst <;> try rfl
    exact List.getElem?_set_ne (fun hh => hk hh.symm)

theorem genStep_instructions_ne (s : GenCheckState) (i k : Nat) (hk : k ≠ i) :
    (genStep s i).instructions[k]? = s.instructions[k]? :=
  genBody_instructions_ne _ i k hk

theorem genStep_depths_ne (s : GenCheckState) (i k : Nat) (hk : k ≠ i) :
    (genStep s i).declaration_depths k = s.declaration_depths k :=
  genBody_depths_ne _ i k hk

/-- Instructions at positions not yet reached are still the originals. -/
theorem genStateAt_instructions_upcoming (instrs : List Instruction) :
    ∀ (i k : Nat), i ≤ k → (genStateAt instrs i).instructions[k]? = instrs[k]? := by
  intro i
  induction i with
  | zero => intro k _; rfl
  | succ i ih =>
    intro k hk
    rw [genStateAt_succ, genStep_instructions_ne]
    · exact ih k (by omega)
    · omega

/-- An instruction that is not a wire is never modified by the pass. -/
theorem genStateAt_instructions_nonwire (instrs : List Instruction) (k : Nat)
    (hnw : ∀ w, instrs[k]? ≠ some (.wire w)) :
    ∀ i, (genStateAt instrs i).instructions[k]? = instrs[k]? := by
  intro i
  induction i with
  | zero => rfl
  | succ i ih =>
    rw [genStateAt_succ]
    by_cases hik : k = i
    · subst hik
      show (genBody (popPhase (genStateAt instrs k) k) k).instructions[k]? = _
      rw [genBody_instructions, popPhase_instructions, ih]
      cases h : instrs[k]? with
      | none => exact ih.trans h
      | some inst =>
        cases inst with
        | wire w => exact absurd h (hnw w)
        | subModule => exact ih.trans h
        | declaration d => exact ih.trans h
        | write wr => exact ih.trans h
        | ifStatement st => exact ih.trans h
        | forStatement => exact ih.trans h
    · rw [genStep_instructions_ne _ _ _ hik]
      exact ih

/-- Instruction `k` never changes after iteration `k` has run. -/
theorem genStateAt_instructions_frozen (instrs : List Instruction) (k : Nat) :
    ∀ (d : Nat), (genStateAt instrs (k + 1 + d)).instructions[k]? =
      (genStateAt instrs (k + 1)).instructions[k]? := by
  intro d
  induction d with
  | zero => rfl
  | succ d ih =>
    have he : k + 1 + (d + 1) = (k + 1 + d) + 1 := by omega
    rw [he, genStateAt_succ, genStep_instructions_ne]
    · exact ih
    · omega

theorem genStateAt_instructions_frozen_le (instrs : List Instruction)
    (k i : Nat) (h : k < i) :
    (genStateAt instrs i).instructions[k]? =
      (genStateAt instrs (k + 1)).instructions[k]? := by
  have he : k + 1 + (i - (k + 1)) = i := by omega
  rw [← he]
  exact genStateAt_instructions_frozen instrs k (i - (k + 1))

/-- The recorded declaration depth at `k` never changes after iteration
`k` has run. -/
theorem genStateAt_depths_frozen_le (instrs : List Instruction)
    (k i : Nat) (h : k < i) :
    (genStateAt instrs i).declaration_depths k =
      (genStateAt instrs (k + 1)).declaration_depths k := by
  have hgen : ∀ (d : Nat), (genStateAt instrs (k + 1 + d)).declaration_depths k =
      (genStateAt instrs (k + 1)).declaration_depths k := by
    intro d
    induction d with
    | zero => rfl
    | succ d ih =>
      have he : k + 1 + (d + 1) = (k + 1 + d) + 1 := by omega
      rw [he, genStateAt_succ, genStep_depths_ne]
      · exact ih
      · omega
  have he : k + 1 + (i - (k + 1)) = i := by omega
  rw [← he]
  exact hgen (i - (k + 1))

theorem wf_if_bound (instrs : List Instruction)
    (wf : if_ranges_wf instrs = true) (j : Nat) (st : IfStatement)
    (hj : instrs[j]? = some (.ifStatement st)) : j < st.else_end := by
  have hmem : ((j, Instruction.ifStatement st) : Nat × Instruction) ∈ instrs.enum :=
    List.mem_enum_iff_getElem?.mpr hj
  have hall := List.all_eq_true.mp wf _ hmem
  simp only [Bool.and_eq_true, decide_eq_true_eq] at hall
  exact hall.1.1

theorem wf_if_nested (instrs : List Instruction)
    (wf : if_ranges_wf instrs = true) (j1 j2 : Nat) (st1 st2 : IfStatement)
    (h1 : instrs[j1]? = some (.ifStatement st1))
    (h2 : instrs[j2]? = some (.ifStatement st2))
    (hlt : j1 < j2) (hin : j2 < st1.else_end) :
    st2.else_end ≤ st1.else_end := by
  have hmem1 : ((j1, Instruction.ifStatement st1) : Nat × Instruction) ∈ instrs.enum :=
    List.mem_enum_iff_getElem?.mpr h1
  have hall := List.all_eq_true.mp wf _ hmem1
  simp only [Bool.and_eq_true, decide_eq_true_eq] at hall
  have hmem2 : ((j2, Instruction.ifStatement st2) : Nat × Instruction) ∈ instrs.enum :=
    List.mem_enum_iff_getElem?.mpr h2
  have hk := List.all_eq_true.mp hall.2 _ hmem2
  simp only [Bool.not_eq_true', Bool.and_eq_false_iff, decide_eq_false_iff_not] at hk
  rcases hk with h | h
  · rcases h with h | h
    · exact absurd hlt h
    · exact absurd hin h
  · omega

theorem entersRuntimeIf_ifStatement (instrs : List Instruction) (j : Nat)
    (es : Nat × Span) (h : entersRuntimeIf instrs j = some es) :
    ∃ st, instrs[j]? = some (.ifStatement st) ∧ es.1 = st.else_end := by
  have hst := genStateAt_instructions_upcoming instrs j j (le_refl j)
  unfold entersRuntimeIf pushed_runtime_if at h
  rw [hst] at h
  cases hj : instrs[j]? with
  | none => simp only [hj] at h; exact Option.noConfusion h
  | some inst =>
    cases inst with
    | ifStatement st =>
      refine ⟨st, rfl, ?_⟩
      simp only [hj] at h
      cases hcw : extract_wire (genStateAt instrs j).instructions st.condition with
      | none => simp only [hcw] at h; exact Option.noConfusion h
      | some cw =>
        simp only [hcw] at h
        by_cases hc : (!cw.is_compiletime) = true
        · rw [if_pos hc] at h
          obtain rfl := (Option.some.inj h).symm
          rfl
        · rw [if_neg hc] at h
          exact Option.noConfusion h
    | subModule => simp only [hj] at h; exact Option.noConfusion h
    | declaration d => simp only [hj] at h; exact Option.noConfusion h
    | wire w => simp only [hj] at h; exact Option.noConfusion h
    | write wr => simp only [hj] at h; exact Option.noConfusion h
    | forStatement => simp only [hj] at h; exact Option.noConfusion h

theorem pre_stack_mem (instrs : List Instruction) (i : Nat) (es : Nat × Span)
    (h : es ∈ pre_runtime_stack instrs i) :
    i ≤ es.1 ∧ ∃ j, j < i ∧ entersRuntimeIf instrs j = some es := by
  unfold pre_runtime_stack at h
  obtain ⟨j, hj, hf⟩ := List.mem_filterMap.mp h
  have hji : j < i := List.mem_range.mp (List.mem_reverse.mp hj)
  cases he : entersRuntimeIf instrs j with
  | none => simp only [he] at hf; exact Option.noConfusion hf
  | some es0 =>
    simp only [he] at hf
    by_cases hle : i ≤ es0.1
    · rw [if_pos hle] at hf
      obtain rfl := Option.some.inj hf
      exact ⟨hle, j, hji, he⟩
    · rw [if_neg hle] at hf
      exact Option.noConfusion hf

theorem pre_stack_sorted (instrs : List Instruction)
    (wf : if_ranges_wf instrs = true) (i : Nat) :
    (pre_runtime_stack instrs i).Pairwise (fun a b => a.1 ≤ b.1) := by
  unfold pre_runtime_stack
  have hbase : ((List.range i).reverse).Pairwise (fun a b => b < a ∧ a < i) := by
    refine List.pairwise_reverse.mpr ?_
    refine List.Pairwise.imp_of_mem ?_ (List.pairwise_lt_range i)
    intro a b ha hb hab
    exact ⟨hab, List.mem_range.mp hb⟩
  refine List.Pairwise.filterMap _ ?_ hbase
  intro a b hab c hc d hd
  cases hea : entersRuntimeIf instrs a with
  | none => simp [hea] at hc
  | some esa =>
    simp only [hea] at hc
    by_cases hia : i ≤ esa.1
    · rw [if_pos hia] at hc
      have hce : esa = c := Option.some.inj hc
      cases heb : entersRuntimeIf instrs b with
      | none => simp [heb] at hd
      | some esb =>
        simp only [heb] at hd
        by_cases hib : i ≤ esb.1
        · rw [if_pos hib] at hd
          have hde : esb = d := Option.some.inj hd
          obtain ⟨sta, hsta, hca⟩ := entersRuntimeIf_ifStatement instrs a esa hea
          obtain ⟨stb, hstb, hdb⟩ := entersRuntimeIf_ifStatement instrs b esb heb
          rw [← hce, ← hde, hca, hdb]
          refine wf_if_nested instrs wf b a stb sta hstb hsta hab.1 ?_
          rw [← hdb]
          exact lt_of_lt_of_le hab.2 hib
        · rw [if_neg hib] at hd
          simp at hd
    · rw [if_neg hia] at hc
      simp at hc

theorem dropWhile_sorted_stack (i : Nat) :
    ∀ (l : List (Nat × Span)), (∀ es ∈ l, i ≤ es.1) →
      l.Pairwise (fun a b => a.1 ≤ b.1) →
      l.dropWhile (fun es => es.1 == i) = l.filter (fun es => decide (i < es.1)) := by
  intro l
  induction l with
  | nil => intro _ _; rfl
  | cons a t ih =>
    intro hb hp
    obtain ⟨hrel, htail⟩ := List.pairwise_cons.mp hp
    rw [List.dropWhile_cons, List.filter_cons]
    by_cases ha : a.1 = i
    · have hpa : (a.1 == i) = true := by simp [ha]
      have hqa : decide (i < a.1) = false := by simp [ha]
      rw [hpa, hqa]
      simp only [if_true, if_false]
      exact ih (fun es hes => hb es (List.mem_cons_of_mem a hes)) htail
    · have hlt : i < a.1 :=
        lt_of_le_of_ne (hb a (List.mem_cons_self a t)) (fun he => ha he.symm)
      have hpa : (a.1 == i) = false := by simp [ha]
      have hqa : decide (i < a.1) = true := by simp [hlt]
      have hfil : t.filter (fun es => decide (i < es.1)) = t := by
        rw [List.filter_eq_self]
        intro b hbt
        simp only [decide_eq_true_eq]
        exact lt_of_lt_of_le hlt (hrel b hbt)
      rw [hpa, hqa]
      simp [hfil]

theorem pre_stack_filter_eq_enclosing (instrs : List Instruction) (i : Nat) :
    (pre_runtime_stack instrs i).filter (fun es => decide (i < es.1)) =
      enclosing_runtime_ifs instrs i := by
  unfold pre_runtime_stack enclosing_runtime_ifs
  generalize (List.range i).reverse = l
  induction l with
  | nil => rfl
  | cons j t ih =>
    rw [List.filterMap_cons, List.filterMap_cons]
    cases he : entersRuntimeIf instrs j with
    | none => exact ih
    | some es =>
      dsimp only
      by_cases hle : i ≤ es.1
      · rw [if_pos hle]
        by_cases hlt : i < es.1
        · rw [List.filter_cons]
          have hdec : decide (i < es.1) = true := by simp [hlt]
          rw [hdec, if_pos hlt]
          simp only [if_true]
          rw [ih]
        · rw [List.filter_cons]
          have hdec : decide (i < es.1) = false := by simp [hlt]
          rw [hdec, if_neg hlt]
          simp only [if_false]
          exact ih
      · rw [if_neg hle]
        have hlt : ¬(i < es.1) := fun hc => hle (le_of_lt hc)
        rw [if_neg hlt]
        exact ih

theorem pre_stack_zero (instrs : List Instruction) :
    pre_runtime_stack instrs 0 = [] := rfl

theorem pre_stack_succ (instrs : List Instruction)
    (wf : if_ranges_wf instrs = true) (i : Nat) :
    pre_runtime_stack instrs (i + 1) =
      match entersRuntimeIf instrs i with
      | some es => es :: enclosing_runtime_ifs instrs i
      | none => enclosing_runtime_ifs instrs i := by
  unfold pre_runtime_stack
  have hrev : (List.range (i + 1)).reverse = i :: (List.range i).reverse := by
    rw [List.range_succ i]
    simp
  rw [hrev, List.filterMap_cons]
  have htail : (List.range i).reverse.filterMap (fun j =>
      match entersRuntimeIf instrs j with
      | some es => if i + 1 ≤ es.1 then some es else none
      | none => none) = enclosing_runtime_ifs instrs i := by
    unfold enclosing_runtime_ifs
    apply List.filterMap_congr
    intro j _
    cases he : entersRuntimeIf instrs j with
    | none => rfl
    | some es =>
      dsimp only
      by_cases hlt : i < es.1
      · rw [if_pos (by omega : i + 1 ≤ es.1), if_pos hlt]
      · rw [if_neg (by omega : ¬(i + 1 ≤ es.1)), if_neg hlt]
  cases he : entersRuntimeIf instrs i with
  | none => rw [htail]
  | some es =>
    obtain ⟨st, hst, hes⟩ := entersRuntimeIf_ifStatement instrs i es he
    have hbound : i < es.1 := by rw [hes]; exact wf_if_bound instrs wf i st hst
    dsimp only
    rw [if_pos (by omega : i + 1 ≤ es.1), htail]

/-- The stack invariant: before iteration `i` the runtime-`if` stack holds
exactly the entries entered before `i` whose range has not yet closed. -/
theorem runtime_stack_invariant (instrs : List Instruction)
    (wf : if_ranges_wf instrs = true) :
    ∀ i, (genStateAt instrs i).runtime_if_stack = pre_runtime_stack instrs i := by
  intro i
  induction i with
  | zero => rfl
  | succ i ih =>
    rw [genStateAt_succ]
    show (genBody (popPhase (genStateAt instrs i) i) i).runtime_if_stack = _
    rw [genBody_stack]
    have hpop : (popPhase (genStateAt instrs i) i).runtime_if_stack =
        enclosing_runtime_ifs instrs i := by
      show (genStateAt instrs i).runtime_if_stack.dropWhile (fun es => es.1 == i) = _
      rw [ih, dropWhile_sorted_stack i _
        (fun es hes => (pre_stack_mem instrs i es hes).1)
        (pre_stack_sorted instrs wf i)]
      exact pre_stack_filter_eq_enclosing instrs i
    have hscrut : pushed_runtime_if (popPhase (genStateAt instrs i) i).instructions i =
        entersRuntimeIf instrs i := rfl
    rw [hscrut, hpop, pre_stack_succ instrs wf i]

/-- After its pop loop, iteration `i`'s stack is exactly the runtime `if`s
enclosing instruction `i`. -/
theorem pop_stack_eq_enclosing (instrs : List Instruction)
    (wf : if_ranges_wf instrs = true) (i : Nat) :
    (popPhase (genStateAt instrs i) i).runtime_if_stack =
      enclosing_runtime_ifs instrs i := by
  show (genStateAt instrs i).runtime_if_stack.dropWhile (fun es => es.1 == i) = _
  rw [runtime_stack_invariant instrs wf i, dropWhile_sorted_stack i _
    (fun es hes => (pre_stack_mem instrs i es hes).1)
    (pre_stack_sorted instrs wf i)]
  exact pre_stack_filter_eq_enclosing instrs i

/-- The depth recorded for a generative declaration at `r` is the number of
runtime `if`s enclosing `r`, and it persists through later iterations. -/
theorem depth_recorded (instrs : List Instruction)
    (wf : if_ranges_wf instrs = true) (r : Nat) (decl : Declaration)
    (hd : instrs[r]? = some (.declaration decl))
    (hgen : decl.identifier_type.is_generative = true) :
    ∀ i, r < i → (genStateAt instrs i).declaration_depths r =
      some (enclosing_runtime_ifs instrs r).length := by
  intro i hri
  rw [genStateAt_depths_frozen_le instrs r i hri, genStateAt_succ]
  show (genBody (popPhase (genStateAt instrs r) r) r).declaration_depths r = _
  rw [genBody_depths_decl _ r decl ?_ hgen]
  · rw [pop_stack_eq_enclosing instrs wf r]
  · rw [popPhase_instructions, genStateAt_instructions_upcoming instrs r r (le_refl r)]
    exact hd

/-- The diagnostics iteration `i` emits are those of its body, computed in
the post-pop state. -/
theorem genEmittedAt_eq (instrs : List Instruction) (i : Nat) :
    genEmittedAt instrs i = genStepErrors (popPhase (genStateAt instrs i) i) i := by
  unfold genEmittedAt
  rw [genStateAt_succ]
  show ((genBody (popPhase (genStateAt instrs i) i) i).errors).drop
    (genStateAt instrs i).errors.length = _
  rw [genBody_errors, popPhase_errors]
  exact List.drop_left _ _

/-- C6: for a `Connection` write whose target root declaration is
generative, `generative_check` reports "Assignments to generative
variables must be compile time" exactly when the written wire is not
compile-time, and it reports "Cannot write to generative variables in
runtime conditional block" exactly when the write is nested inside more
enclosing runtime `if`s (non-compile-time conditions) than the nesting
depth at which the target declaration was declared. -/
theorem generative_check_write_errors (instrs : List Instruction)
    (wf : if_ranges_wf instrs = true) (i : Nat) (w : FlatWrite)
    (num_regs : Int) (regs_span : Option Span) (decl : Declaration)
    (fw : WireInstance)
    (hi : instrs[i]? = some (.write w))
    (hwt : w.write_type = .connection num_regs regs_span)
    (hd : instrs[w.to_ref.root]? = some (.declaration decl))
    (hgen : decl.identifier_type.is_generative = true)
    (hlt : w.to_ref.root < i)
    (hfw : extract_wire (genStateAt instrs i).instructions w.from_wire = some fw) :
    (fw.is_compiletime = false ↔
      (fw.span, "Assignments to generative variables must be compile time") ∈
        genEmittedAt instrs i) ∧
    ((w.to_ref.span, "Cannot write to generative variables in runtime conditional block") ∈
        genEmittedAt instrs i ↔
      (enclosing_runtime_ifs instrs w.to_ref.root).length <
        (enclosing_runtime_ifs instrs i).length) := by
  have hsi : (popPhase (genStateAt instrs i) i).instructions[i]? = some (.write w) := by
    rw [popPhase_instructions, genStateAt_instructions_upcoming instrs i i (le_refl i)]
    exact hi
  have hge : genStepErrors (popPhase (genStateAt instrs i) i) i =
      write_step_errors (popPhase (genStateAt instrs i) i) w := by
    unfold genStepErrors
    rw [hsi]
  have hdecl : extract_wire_declaration (popPhase (genStateAt instrs i) i).instructions
      w.to_ref.root = some decl := by
    unfold extract_wire_declaration
    rw [popPhase_instructions,
      genStateAt_instructions_nonwire instrs w.to_ref.root ?_ i, hd]
    intro w' hw'
    rw [hd] at hw'
    simp at hw'
  have hfw2 : extract_wire (popPhase (genStateAt instrs i) i).instructions
      w.from_wire = some fw := by
    rw [popPhase_instructions]
    exact hfw
  have hdep : (popPhase (genStateAt instrs i) i).declaration_depths w.to_ref.root =
      some (enclosing_runtime_ifs instrs w.to_ref.root).length := by
    rw [popPhase_depths]
    exact depth_recorded instrs wf w.to_ref.root decl hd hgen i hlt
  have hstk := pop_stack_eq_enclosing instrs wf i
  have hwse : write_step_errors (popPhase (genStateAt instrs i) i) w =
      (if decl.read_only then
        [(w.to_ref.span, "Cannot Assign to Read-Only value")] else []) ++
      ((if !fw.is_compiletime then
          [(fw.span, "Assignments to generative variables must be compile time")]
        else []) ++
       (if (enclosing_runtime_ifs instrs i).length >
            (enclosing_runtime_ifs instrs w.to_ref.root).length then
          [(w.to_ref.span,
            "Cannot write to generative variables in runtime conditional block")]
        else [])) := by
    unfold write_step_errors
    rw [hdecl]
    dsimp only
    rw [hwt]
    dsimp only
    rw [hgen, hfw2, hdep, hstk]
    simp [must_be_compiletime]
  rw [genEmittedAt_eq, hge, hwse]
  cases hfc : fw.is_compiletime <;>
    cases hro : decl.read_only <;>
    by_cases hcmp : (enclosing_runtime_ifs instrs w.to_ref.root).length <
        (enclosing_runtime_ifs instrs i).length <;>
    simp [hcmp, gt_iff_lt]

/-- Witness for C6: in `c6_instrs` the write at 5 targets the generative
declaration at 1 (declared outside any runtime `if`) from inside the
runtime `if` at 3, with a non-compile-time source wire. -/
theorem generative_check_write_errors_witness :
    if_ranges_wf c6_instrs = true ∧
    ((c6_fw.is_compiletime = false ↔
      (c6_fw.span, "Assignments to generative variables must be compile time") ∈
        genEmittedAt c6_instrs 5) ∧
     ((c6_w.to_ref.span,
        "Cannot write to generative variables in runtime conditional block") ∈
        genEmittedAt c6_instrs 5 ↔
      (enclosing_runtime_ifs c6_instrs c6_w.to_ref.root).length <
        (enclosing_runtime_ifs c6_instrs 5).length)) :=
  ⟨by decide,
   generative_check_write_errors c6_instrs (by decide) 5 c6_w 0 none c6_decl c6_fw
     (by decide) rfl (by decide) (by decide) (by decide) (by decide)⟩

end Sus
